import Mathlib

/-!
Verification of the interactive remote session orchestrator
(`ikernel_remote/kernel.py`, `ikernel_remote/manage.py`).

Python strings are embedded as `List Char` (built from Lean string
literals via `.data`); optional values as `Option`; the spawned
processes and the keep-alive loop as explicit state machines whose
inputs (process liveness, read outcomes, interrupt arrival) are data.
-/

/-- Python `str` is embedded as a list of characters. -/
abbrev Str := List Char

/-- Shorthand turning a Lean string literal into its character list. -/
def str (s : String) : Str := s.data

/-- Python `str(n)` for a non-negative integer, via the decimal repr. -/
def natStr (n : Nat) : Str := (Nat.repr n).data

/-- Python `sep.join(parts)`. -/
def pyJoin (sep : Str) : List Str → Str
  | [] => []
  | [x] => x
  | x :: xs => x ++ sep ++ pyJoin sep xs

/-- Python truthiness of an optional string (`if s:`):
`None` and the empty string are falsy. -/
def pyTruthy (o : Option Str) : Bool :=
  match o with
  | none => false
  | some s => !s.isEmpty

/-- `occurs pat s` holds when `pat` appears as a contiguous substring
of `s` (Python `pat in s`, `re.search` of a literal). -/
def occurs (pat s : Str) : Prop := ∃ u v, s = u ++ pat ++ v

/-- Executable substring test. -/
def occursB (pat s : Str) : Bool := s.tails.any fun t => pat.isPrefixOf t

theorem isPrefixOf_iff_append {l t : Str} :
    l.isPrefixOf t = true ↔ ∃ r, l ++ r = t := by
  induction l generalizing t with
  | nil => simp [List.isPrefixOf]
  | cons c cs ih =>
    cases t with
    | nil => simp [List.isPrefixOf]
    | cons d ds =>
      simp only [List.isPrefixOf, Bool.and_eq_true, beq_iff_eq, ih,
        List.cons_append, List.cons.injEq]
      constructor
      · rintro ⟨rfl, r, rfl⟩
        exact ⟨r, rfl, rfl⟩
      · rintro ⟨r, rfl, rfl⟩
        exact ⟨rfl, r, rfl⟩

theorem occursB_iff {pat s : Str} : occursB pat s = true ↔ occurs pat s := by
  unfold occursB occurs
  rw [List.any_eq_true]
  constructor
  · rintro ⟨t, ht, hp⟩
    rw [List.mem_tails] at ht
    obtain ⟨u, rfl⟩ := ht
    obtain ⟨r, rfl⟩ := isPrefixOf_iff_append.mp hp
    exact ⟨u, r, by simp⟩
  · rintro ⟨u, v, rfl⟩
    refine ⟨pat ++ v, ?_, ?_⟩
    · rw [List.mem_tails]
      exact ⟨u, by simp⟩
    · exact isPrefixOf_iff_append.mpr ⟨v, rfl⟩

/-- Any occurrence inside an appended string lies in the left part,
in the right part, or straddles the boundary. -/
theorem occurs_append {p a b : Str} (h : occurs p (a ++ b)) :
    occurs p a ∨ occurs p b ∨
      ∃ p₁ p₂, p = p₁ ++ p₂ ∧ p₁ ≠ [] ∧ p₂ ≠ [] ∧
        (∃ u, u ++ p₁ = a) ∧ (∃ r, p₂ ++ r = b) := by
  obtain ⟨u, v, huv⟩ := h
  have huv' : a ++ b = u ++ (p ++ v) := huv.trans (List.append_assoc u p v)
  rcases List.append_eq_append_iff.mp huv' with ⟨w, hw, hb⟩ | ⟨w, hw, hb⟩
  · -- u = a ++ w : occurrence entirely inside b
    right; left
    exact ⟨w, v, by rw [hb, List.append_assoc]⟩
  · -- a = u ++ w  and  p ++ v = w ++ b
    rcases List.append_eq_append_iff.mp hb.symm with ⟨x, hx, hv⟩ | ⟨x, hx, hv⟩
    · -- p = w ++ x, b = x ++ v
      cases hweq : w with
      | nil =>
        right; left
        refine ⟨[], v, ?_⟩
        subst hweq
        simp only [List.nil_append] at hx
        rw [hv, ← hx]
        simp
      | cons c cs =>
        cases hxeq : x with
        | nil =>
          left
          refine ⟨u, [], ?_⟩
          subst hxeq
          simp only [List.append_nil] at hx ⊢
          rw [hw, ← hx]
        | cons d ds =>
          right; right
          refine ⟨w, x, hx, by simp [hweq], by simp [hxeq],
            ⟨u, hw.symm⟩, ⟨v, hv.symm⟩⟩
    · -- w = p ++ x : occurrence entirely inside a
      left
      exact ⟨u, x, by rw [hw, hx, List.append_assoc]⟩

theorem occurs_append_left {p a : Str} (b : Str) (h : occurs p a) :
    occurs p (a ++ b) := by
  obtain ⟨u, v, rfl⟩ := h
  exact ⟨u, v ++ b, by simp⟩

theorem occurs_append_right {p b : Str} (a : Str) (h : occurs p b) :
    occurs p (a ++ b) := by
  obtain ⟨u, v, rfl⟩ := h
  exact ⟨a ++ u, v, by simp⟩

/-- Characters occurring in the string an occurrence is part of. -/
theorem occurs_mem {p s : Str} (h : occurs p s) {c : Char} (hc : c ∈ p) : c ∈ s := by
  obtain ⟨u, v, rfl⟩ := h
  simp [hc]

/-- Every character of `Nat.toDigitsCore 10` output is a decimal digit
when the accumulator already is one. -/
theorem toDigitsCore_digits (fuel n : Nat) (ds : List Char)
    (hds : ∀ c ∈ ds, c.isDigit = true) :
    ∀ c ∈ Nat.toDigitsCore 10 fuel n ds, c.isDigit = true := by
  induction fuel generalizing n ds with
  | zero => simpa [Nat.toDigitsCore] using hds
  | succ fuel ih =>
    rw [Nat.toDigitsCore]
    have hd : (n % 10).digitChar.isDigit = true := by
      have h : n % 10 < 10 := Nat.mod_lt _ (by decide)
      interval_cases h10 : (n % 10) <;> decide
    by_cases hn : n / 10 = 0
    · simp only [hn, if_pos rfl]
      intro c hc
      rcases List.mem_cons.mp hc with hc | hc
      · exact hc ▸ hd
      · exact hds c hc
    · simp only [if_neg hn]
      refine ih _ _ ?_
      intro c hc
      rcases List.mem_cons.mp hc with hc | hc
      · exact hc ▸ hd
      · exact hds c hc

theorem toDigitsCore_ne_nil (fuel n : Nat) (ds : List Char) (hfuel : 0 < fuel) :
    Nat.toDigitsCore 10 fuel n ds ≠ [] := by
  induction fuel generalizing n ds with
  | zero => exact absurd hfuel (by omega)
  | succ fuel ih =>
    rw [Nat.toDigitsCore]
    by_cases hn : n / 10 = 0
    · simp [hn]
    · simp only [if_neg hn]
      cases hf : fuel with
      | zero => rw [Nat.toDigitsCore]; simp
      | succ f => exact hf ▸ ih _ _ (by omega)

theorem natStr_digits (n : Nat) : ∀ c ∈ natStr n, c.isDigit = true := by
  intro c hc
  unfold natStr Nat.repr Nat.toDigits at hc
  rw [List.asString] at hc
  exact toDigitsCore_digits _ _ _ (fun c hc => absurd hc (List.not_mem_nil c)) c hc

theorem natStr_ne_nil (n : Nat) : natStr n ≠ [] := by
  intro h
  unfold natStr Nat.repr Nat.toDigits at h
  rw [List.asString] at h
  exact toDigitsCore_ne_nil (n + 1) n [] (by omega) h

/-- Characters a resource value (memory size, walltime) is assumed to
consist of: digits, `:`, `.`, and the size suffixes `G`/`M`/`K`.
These are disjoint from every scheduler flag character. -/
def benignChar (c : Char) : Prop :=
  c.isDigit = true ∨ c = ':' ∨ c = '.' ∨ c = 'G' ∨ c = 'M' ∨ c = 'K'

instance (c : Char) : Decidable (benignChar c) := by
  unfold benignChar
  infer_instance

/-- A well-behaved resource value string: nonempty, only benign chars. -/
def resvalOk (s : Str) : Prop := s ≠ [] ∧ ∀ c ∈ s, benignChar c

def resvalOkOpt (o : Option Str) : Prop := ∀ s, o = some s → resvalOk s

/-- A command line is viewed as alternating literal template pieces and
interpolated values for the substring (flag) analysis. -/
inductive Seg
  | lit (l : Str)
  | var (l : Str)

def segStr : Seg → Str
  | .lit l => l
  | .var l => l

def flatten : List Seg → Str
  | [] => []
  | s :: rest => segStr s ++ flatten rest

/-- Segment-level hypotheses making a flag unable to occur: the flag
does not occur inside any literal, every interpolated value is nonempty
with characters disjoint from the flag. -/
def segOk (flag : Str) : Seg → Prop
  | .lit l => ¬ occurs flag l ∧ l ≠ []
  | .var v => v ≠ [] ∧ ∀ c ∈ v, c ∉ flag

/-- Conservative executable check that `p` cannot be a prefix of the
rendering of `segs` (exact on literals; interpolated values are assumed
flag-disjoint, which blocks `p` at once since the callers use it only
for `p` drawn from the flag). -/
def blocksB (p : Str) : List Seg → Bool
  | [] => !p.isEmpty
  | .lit l :: rest =>
      if p.length ≤ l.length then !p.isPrefixOf l
      else if l.isPrefixOf p then blocksB (p.drop l.length) rest
      else true
  | .var _ :: _ => true

/-- The proper nonempty suffixes of a flag string. -/
def properSufs (flag : Str) : List Str :=
  flag.tails.filter fun t => !t.isEmpty && t.length != flag.length

/-- No proper suffix of the flag is a prefix of the rendering. -/
def sufsBlocked (flag : Str) (segs : List Seg) : Bool :=
  (properSufs flag).all fun p => blocksB p segs

/-- `sufsBlocked` for every proper tail of the segment list. -/
def tailsOk (flag : Str) : List Seg → Prop
  | [] => True
  | _ :: rest => sufsBlocked flag rest = true ∧ tailsOk flag rest

theorem blocksB_sound {flag : Str} {segs : List Seg} {p : Str}
    (hb : blocksB p segs = true)
    (hvars : ∀ s ∈ segs, segOk flag s)
    (hchar : ∀ c ∈ p, c ∈ flag)
    (hp : p ≠ []) : ∀ r, p ++ r ≠ flatten segs := by
  induction segs generalizing p with
  | nil =>
    intro r heq
    rw [flatten] at heq
    rcases List.append_eq_nil.mp heq with ⟨h1, _⟩
    exact hp h1
  | cons s rest ih =>
    intro r heq
    cases s with
    | var v =>
      obtain ⟨hv, hdisj⟩ := hvars (.var v) (by simp)
      cases p with
      | nil => exact hp rfl
      | cons c p' =>
        cases hveq : v with
        | nil => exact hv hveq
        | cons d v' =>
          have : flatten (Seg.var v :: rest) = d :: (v' ++ flatten rest) := by
            rw [flatten, segStr, hveq]; rfl
          rw [this] at heq
          have hcd : c = d := by
            have := congrArg (fun l => l.head?) heq
            simpa using this
          exact hdisj d (by rw [hveq]; simp) (hcd ▸ hchar c (by simp))
    | lit l =>
      have hflat : flatten (Seg.lit l :: rest) = l ++ flatten rest := rfl
      rw [hflat] at heq
      rw [blocksB] at hb
      by_cases hlen : p.length ≤ l.length
      · rw [if_pos hlen] at hb
        have hpre : p = l.take p.length := by
          have h1 : (p ++ r).take p.length = p := List.take_left p r
          rw [heq, List.take_append_of_le_length hlen] at h1
          exact h1.symm
        have : p.isPrefixOf l = true :=
          isPrefixOf_iff_append.mpr
            ⟨l.drop p.length, by nth_rewrite 1 [hpre]; exact List.take_append_drop _ l⟩
        rw [this] at hb
        simp at hb
      · rw [if_neg hlen] at hb
        have hlen' : l.length ≤ p.length := by omega
        have hlpre : l.isPrefixOf p = true := by
          have h1 : (p ++ r).take l.length = p.take l.length :=
            List.take_append_of_le_length hlen'
          rw [heq, List.take_left] at h1
          exact isPrefixOf_iff_append.mpr
            ⟨p.drop l.length, by nth_rewrite 1 [h1]; exact List.take_append_drop _ p⟩
        rw [if_pos hlpre] at hb
        obtain ⟨q, hq⟩ := isPrefixOf_iff_append.mp hlpre
        have hdrop : p.drop l.length = q := by rw [← hq]; exact List.drop_left l q
        rw [hdrop] at hb
        have hq' : q ++ r = flatten rest := by
          have : l ++ (q ++ r) = l ++ flatten rest := by
            rw [← List.append_assoc, hq, heq]
          exact List.append_cancel_left this
        refine ih hb (fun s hs => hvars s (by simp [hs])) ?_ ?_ r hq'
        · intro c hc
          exact hchar c (by rw [← hq]; simp [hc])
        · intro hqnil
          rw [hqnil, List.append_nil] at hq
          exact hlen (by rw [← hq])


theorem sufsBlocked_spec {flag : Str} {segs : List Seg}
    (h : sufsBlocked flag segs = true) :
    ∀ p₁ p₂ : Str, p₁ ≠ [] → p₂ ≠ [] → p₁ ++ p₂ = flag →
      blocksB p₂ segs = true := by
  intro p₁ p₂ h₁ h₂ hsplit
  refine List.all_eq_true.mp h p₂ ?_
  rw [properSufs, List.mem_filter]
  refine ⟨?_, ?_⟩
  · rw [List.mem_tails]
    exact ⟨p₁, hsplit⟩
  · have hlen : p₂.length < flag.length := by
      rw [← hsplit, List.length_append]
      cases p₁ with
      | nil => exact absurd rfl h₁
      | cons c cs => simp
    have hne : p₂.isEmpty = false := by
      cases p₂ with
      | nil => exact absurd rfl h₂
      | cons c cs => rfl
    simp [hne, bne_iff_ne]
    omega

/-- Main absence lemma: under the segment hypotheses a flag does not
occur in the rendered command line. -/
theorem no_occurs_flatten {flag : Str} {segs : List Seg}
    (hflag : flag ≠ [])
    (hsegs : ∀ s ∈ segs, segOk flag s)
    (htails : tailsOk flag segs) :
    ¬ occurs flag (flatten segs) := by
  induction segs with
  | nil =>
    rintro ⟨u, v, huv⟩
    have h0 : u ++ flag ++ v = ([] : Str) := huv.symm
    rcases List.append_eq_nil.mp h0 with ⟨h1, h2⟩
    rcases List.append_eq_nil.mp h1 with ⟨h3, h4⟩
    exact hflag h4
  | cons s rest ih =>
    intro hocc
    have hs := hsegs s (by simp)
    obtain ⟨hh, ht⟩ := htails
    have hflat : flatten (s :: rest) = segStr s ++ flatten rest := rfl
    rw [hflat] at hocc
    rcases occurs_append hocc with h | h | ⟨p₁, p₂, hp, hp₁, hp₂, ⟨u, hu⟩, ⟨r, hr⟩⟩
    · cases s with
      | lit l => exact hs.1 h
      | var v =>
        cases hf : flag with
        | nil => exact hflag hf
        | cons c cs =>
          have hcv : c ∈ v := occurs_mem h (by rw [hf]; simp)
          exact hs.2 c hcv (by rw [hf]; simp)
    · exact ih (fun t htm => hsegs t (by simp [htm])) ht h
    · -- straddle: a proper suffix of the flag would have to begin `rest`
      have hblock : blocksB p₂ rest = true := sufsBlocked_spec hh p₁ p₂ hp₁ hp₂ hp.symm
      have hsubs : ∀ c ∈ p₂, c ∈ flag := by
        intro c hc
        rw [hp]; simp [hc]
      exact blocksB_sound hblock (fun t htm => hsegs t (by simp [htm])) hsubs hp₂ r hr

/-! ## Launch command construction (SchedulerAdapter variants)

Faithful translations of the command strings built by `launch_local`,
`launch_ssh`, `launch_pbs`, `launch_sge` and `launch_slurm` in
`ikernel_remote/kernel.py`.  `job_name` is the literal
`ikernel_remote` in all three batch variants. -/

/-- The five interface variants dispatched in `RemoteIKernel.__init__`. -/
inductive Iface
  | iLocal
  | iSsh
  | iPbs
  | iSge
  | iSlurm
deriving DecidableEq

/-- `launch_local`: `/bin/bash {launch_args}` when `launch_args` is
truthy, else `/bin/bash`. -/
def local_cmd (launch_args : Option Str) : Str :=
  if pyTruthy launch_args then str "/bin/bash " ++ launch_args.getD []
  else str "/bin/bash"

/-- Python format of an optional string value: `None` prints as
`None`. -/
def pyFormatOpt (o : Option Str) : Str :=
  match o with
  | none => str "None"
  | some s => s

/-- `launch_ssh` login command:
`ssh -R {port_remote}:localhost:{port_local} -o StrictHostKeyChecking=no {args} {host}`. -/
def ssh_login_cmd (launch_args : Option Str) (host : Option Str)
    (port_remote port_local : Nat) : Str :=
  str "ssh -R " ++ natStr port_remote ++ str ":localhost:" ++ natStr port_local ++
    str " -o StrictHostKeyChecking=no " ++
    (if pyTruthy launch_args then launch_args.getD [] else []) ++
    str " " ++ pyFormatOpt host

/-- `launch_pbs` resource list: `ncpus=`, `mem=`, `walltime=` entries. -/
def pbs_res (cpus : Nat) (mem time : Option Str) : List Str :=
  (if cpus > 1 then [str "ncpus=" ++ natStr cpus] else []) ++
  (match mem with | some m => [str "mem=" ++ m] | none => []) ++
  (match time with | some t => [str "walltime=" ++ t] | none => [])

/-- `launch_pbs` command: `qsub -I {res} -N {job_name} {args}`. -/
def pbs_cmd (cpus : Nat) (mem time launch_args : Option Str) : Str :=
  let res := pbs_res cpus mem time
  let res_string := if res.isEmpty then [] else str "-l " ++ pyJoin (str ",") res
  let args_string := if pyTruthy launch_args then launch_args.getD [] else []
  str "qsub -I " ++ res_string ++ str " -N " ++ str "ikernel_remote" ++
    str " " ++ args_string

/-- `launch_sge` resource list: `h_vmem=`, `h_rt=` entries. -/
def sge_res (mem time : Option Str) : List Str :=
  (match mem with | some m => [str "h_vmem=" ++ m] | none => []) ++
  (match time with | some t => [str "h_rt=" ++ t] | none => [])

/-- `launch_sge` command:
`qlogin -now n {pe_string} {res} -N {job_name} {args}` where
`pe_string` is `-pe {pe} {cpus}` when `cpus > 1`, else empty. -/
def sge_cmd (cpus : Nat) (mem time : Option Str) (pe : Str)
    (launch_args : Option Str) : Str :=
  let pe_string := if cpus > 1 then str "-pe " ++ pe ++ str " " ++ natStr cpus else []
  let res := sge_res mem time
  let res_string := if res.isEmpty then [] else str "-l " ++ pyJoin (str ",") res
  let args_string := if pyTruthy launch_args then launch_args.getD [] else []
  str "qlogin -now n " ++ pe_string ++ str " " ++ res_string ++
    str " -N " ++ str "ikernel_remote" ++ str " " ++ args_string

/-- `launch_slurm` options accumulated by `+=`:
` --cpus-per-task {cpus}`, ` --mem {mem}`, ` --time {time}`. -/
def slurm_opts (cpus : Nat) (mem time : Option Str) : Str :=
  (if cpus > 1 then str " --cpus-per-task " ++ natStr cpus else []) ++
  (match mem with | some m => str " --mem " ++ m | none => []) ++
  (match time with | some t => str " --time " ++ t | none => [])

/-- `launch_slurm` command:
`srun{opts} -J {job_name} {args} -v -u bash -i`. -/
def slurm_cmd (cpus : Nat) (mem time launch_args : Option Str) : Str :=
  let args_string := if pyTruthy launch_args then launch_args.getD [] else []
  str "srun" ++ slurm_opts cpus mem time ++ str " -J " ++ str "ikernel_remote" ++
    str " " ++ args_string ++ str " -v -u bash -i"

/-- The command line a variant builds from the resource request. -/
def launchCmd (i : Iface) (cpus : Nat) (mem time : Option Str) (pe : Str)
    (launch_args : Option Str) (host : Option Str)
    (port_remote port_local : Nat) : Str :=
  match i with
  | .iLocal => local_cmd launch_args
  | .iSsh => ssh_login_cmd launch_args host port_remote port_local
  | .iPbs => pbs_cmd cpus mem time launch_args
  | .iSge => sge_cmd cpus mem time pe launch_args
  | .iSlurm => slurm_cmd cpus mem time launch_args

/-- The three resource request fields of claim C1. -/
inductive ResKind
  | cpusR
  | memR
  | timeR
deriving DecidableEq

/-- The scheduler-specific flag text for each variant and resource
field; the local and ssh variants take no resource flags. -/
def variantFlag (i : Iface) (k : ResKind) : Option Str :=
  match i, k with
  | .iPbs, .cpusR => some (str "ncpus=")
  | .iPbs, .memR => some (str "mem=")
  | .iPbs, .timeR => some (str "walltime=")
  | .iSge, .cpusR => some (str "-pe")
  | .iSge, .memR => some (str "h_vmem=")
  | .iSge, .timeR => some (str "h_rt=")
  | .iSlurm, .cpusR => some (str "--cpus-per-task")
  | .iSlurm, .memR => some (str "--mem")
  | .iSlurm, .timeR => some (str "--time")
  | _, _ => none

/-- Whether a resource field is non-default / non-null. -/
def flagCond (k : ResKind) (cpus : Nat) (mem time : Option Str) : Prop :=
  match k with
  | .cpusR => cpus > 1
  | .memR => mem.isSome
  | .timeR => time.isSome

/-- Decidable check that no flag character is benign. -/
def benignFlagB (flag : Str) : Bool :=
  flag.all fun c => !(c.isDigit || c == ':' || c == '.' || c == 'G' || c == 'M' || c == 'K')

theorem benign_not_mem {flag : Str} (h : benignFlagB flag = true) {c : Char}
    (hb : benignChar c) : c ∉ flag := by
  intro hc
  have hall := List.all_eq_true.mp h c hc
  rcases hb with h1 | h1 | h1 | h1 | h1 | h1 <;> simp [h1] at hall

/-- `tailsOk` as an executable check. -/
def tailsOkB (flag : Str) : List Seg → Bool
  | [] => true
  | _ :: rest => sufsBlocked flag rest && tailsOkB flag rest

/-- Combined executable absence certificate for one flag against a
segment list (checks everything except the interpolated values, which
are handled by the `resvalOk` hypothesis). -/
def noFlagB (flag : Str) (segs : List Seg) : Bool :=
  !flag.isEmpty && benignFlagB flag &&
  (segs.all fun s => match s with
    | .lit l => !occursB flag l && !l.isEmpty
    | .var _ => true) &&
  tailsOkB flag segs

theorem resvalOk_natStr (n : Nat) : resvalOk (natStr n) :=
  ⟨natStr_ne_nil n, fun c hc => Or.inl (natStr_digits n c hc)⟩

theorem tailsOkB_sound {flag : Str} {segs : List Seg}
    (h : tailsOkB flag segs = true) : tailsOk flag segs := by
  induction segs with
  | nil => trivial
  | cons s rest ih =>
    rw [tailsOkB, Bool.and_eq_true] at h
    exact ⟨h.1, ih h.2⟩

/-- Main workhorse: an executable certificate plus benign interpolated
values imply the flag is absent from the rendered command line. -/
theorem noFlag_sound {flag : Str} {segs : List Seg}
    (hb : noFlagB flag segs = true)
    (hvars : ∀ v, Seg.var v ∈ segs → resvalOk v) :
    ¬ occurs flag (flatten segs) := by
  rw [noFlagB, Bool.and_eq_true, Bool.and_eq_true, Bool.and_eq_true] at hb
  obtain ⟨⟨⟨hne, hben⟩, hall⟩, htails⟩ := hb
  refine no_occurs_flatten ?_ ?_ (tailsOkB_sound htails)
  · intro h
    rw [h] at hne
    cases hne
  · intro s hs
    have := List.all_eq_true.mp hall s hs
    cases s with
    | lit l =>
      rw [Bool.and_eq_true] at this
      refine ⟨fun hocc => ?_, fun hl => ?_⟩
      · rw [← occursB_iff] at hocc
        rw [hocc] at this
        cases this.1
      · rw [hl] at this
        cases this.2
    | var v =>
      have hv := hvars v hs
      exact ⟨hv.1, fun c hc => benign_not_mem hben (hv.2 c hc)⟩


/-- Occurrence is transitive: anything occurring in a part occurs in
the whole. -/
theorem occurs_trans {p q s : Str} (h1 : occurs p q) (h2 : occurs q s) :
    occurs p s := by
  obtain ⟨a, b, rfl⟩ := h1
  obtain ⟨u, v, rfl⟩ := h2
  exact ⟨u ++ a, b ++ v, by simp [List.append_assoc]⟩


/-- Flag presence for the pbs launch command, by cases on the three
resource conditions. -/
theorem pbs_flags_iff (cpus : Nat) (mem time : Option Str)
    (hm : resvalOkOpt mem) (ht : resvalOkOpt time) :
    (occurs (str "ncpus=") (pbs_cmd cpus mem time none) ↔ cpus > 1) ∧
    (occurs (str "mem=") (pbs_cmd cpus mem time none) ↔ mem.isSome = true) ∧
    (occurs (str "walltime=") (pbs_cmd cpus mem time none) ↔ time.isSome = true) := by
  rcases mem with _ | m <;> rcases time with _ | t
  · by_cases hc : cpus > 1
    · have hcmd : pbs_cmd cpus none none none =
          flatten [Seg.lit (str "qsub -I "),
          Seg.lit (str "-l "),
          Seg.lit (str "ncpus="),
          Seg.var (natStr cpus),
          Seg.lit (str " -N "),
          Seg.lit (str "ikernel_remote"),
          Seg.lit (str " ")] := by
        simp [pbs_cmd, pbs_res, pyJoin, pyTruthy, flatten, segStr, hc, List.append_assoc]
      have hv : ∀ v, Seg.var v ∈ [Seg.lit (str "qsub -I "),
          Seg.lit (str "-l "),
          Seg.lit (str "ncpus="),
          Seg.var (natStr cpus),
          Seg.lit (str " -N "),
          Seg.lit (str "ikernel_remote"),
          Seg.lit (str " ")] → resvalOk v := by
        intro v hvm
        simp at hvm
        rcases hvm with rfl
        exact resvalOk_natStr cpus
      refine ⟨iff_of_true ?_ hc, iff_of_false (hcmd ▸ noFlag_sound rfl hv) (by simp), iff_of_false (hcmd ▸ noFlag_sound rfl hv) (by simp)⟩
      · exact occurs_trans (occursB_iff.mp (rfl : occursB (str "ncpus=") (str "ncpus=") = true))
          (⟨str "qsub -I " ++ str "-l ",
            natStr cpus ++ str " -N " ++ str "ikernel_remote" ++ str " ",
            by simp [pbs_cmd, pbs_res, pyJoin, pyTruthy, hc, List.append_assoc]⟩ : occurs (str "ncpus=") (pbs_cmd cpus none none none))
    · have hcmd : pbs_cmd cpus none none none =
          flatten [Seg.lit (str "qsub -I "),
          Seg.lit (str " -N "),
          Seg.lit (str "ikernel_remote"),
          Seg.lit (str " ")] := by
        simp [pbs_cmd, pbs_res, pyJoin, pyTruthy, flatten, segStr, hc, List.append_assoc]
      refine ⟨iff_of_false (hcmd ▸ noFlag_sound rfl (fun v hvm => by simp at hvm)) hc, iff_of_false (hcmd ▸ noFlag_sound rfl (fun v hvm => by simp at hvm)) (by simp), iff_of_false (hcmd ▸ noFlag_sound rfl (fun v hvm => by simp at hvm)) (by simp)⟩
  · have htt := ht t rfl
    by_cases hc : cpus > 1
    · have hcmd : pbs_cmd cpus none (some t) none =
          flatten [Seg.lit (str "qsub -I "),
          Seg.lit (str "-l "),
          Seg.lit (str "ncpus="),
          Seg.var (natStr cpus),
          Seg.lit (str ","),
          Seg.lit (str "walltime="),
          Seg.var (t),
          Seg.lit (str " -N "),
          Seg.lit (str "ikernel_remote"),
          Seg.lit (str " ")] := by
        simp [pbs_cmd, pbs_res, pyJoin, pyTruthy, flatten, segStr, hc, List.append_assoc]
      have hv : ∀ v, Seg.var v ∈ [Seg.lit (str "qsub -I "),
          Seg.lit (str "-l "),
          Seg.lit (str "ncpus="),
          Seg.var (natStr cpus),
          Seg.lit (str ","),
          Seg.lit (str "walltime="),
          Seg.var (t),
          Seg.lit (str " -N "),
          Seg.lit (str "ikernel_remote"),
          Seg.lit (str " ")] → resvalOk v := by
        intro v hvm
        simp at hvm
        rcases hvm with rfl | rfl
        exacts [resvalOk_natStr cpus, htt]
      refine ⟨iff_of_true ?_ hc, iff_of_false (hcmd ▸ noFlag_sound rfl hv) (by simp), iff_of_true ?_ rfl⟩
      · exact occurs_trans (occursB_iff.mp (rfl : occursB (str "ncpus=") (str "ncpus=") = true))
          (⟨str "qsub -I " ++ str "-l ",
            natStr cpus ++ str "," ++ str "walltime=" ++ t ++ str " -N " ++ str "ikernel_remote" ++ str " ",
            by simp [pbs_cmd, pbs_res, pyJoin, pyTruthy, hc, List.append_assoc]⟩ : occurs (str "ncpus=") (pbs_cmd cpus none (some t) none))
      · exact occurs_trans (occursB_iff.mp (rfl : occursB (str "walltime=") (str "walltime=") = true))
          (⟨str "qsub -I " ++ str "-l " ++ str "ncpus=" ++ natStr cpus ++ str ",",
            t ++ str " -N " ++ str "ikernel_remote" ++ str " ",
            by simp [pbs_cmd, pbs_res, pyJoin, pyTruthy, hc, List.append_assoc]⟩ : occurs (str "walltime=") (pbs_cmd cpus none (some t) none))
    · have hcmd : pbs_cmd cpus none (some t) none =
          flatten [Seg.lit (str "qsub -I "),
          Seg.lit (str "-l "),
          Seg.lit (str "walltime="),
          Seg.var (t),
          Seg.lit (str " -N "),
          Seg.lit (str "ikernel_remote"),
          Seg.lit (str " ")] := by
        simp [pbs_cmd, pbs_res, pyJoin, pyTruthy, flatten, segStr, hc, List.append_assoc]
      have hv : ∀ v, Seg.var v ∈ [Seg.lit (str "qsub -I "),
          Seg.lit (str "-l "),
          Seg.lit (str "walltime="),
          Seg.var (t),
          Seg.lit (str " -N "),
          Seg.lit (str "ikernel_remote"),
          Seg.lit (str " ")] → resvalOk v := by
        intro v hvm
        simp at hvm
        rcases hvm with rfl
        exact htt
      refine ⟨iff_of_false (hcmd ▸ noFlag_sound rfl hv) hc, iff_of_false (hcmd ▸ noFlag_sound rfl hv) (by simp), iff_of_true ?_ rfl⟩
      · exact occurs_trans (occursB_iff.mp (rfl : occursB (str "walltime=") (str "walltime=") = true))
          (⟨str "qsub -I " ++ str "-l ",
            t ++ str " -N " ++ str "ikernel_remote" ++ str " ",
            by simp [pbs_cmd, pbs_res, pyJoin, pyTruthy, hc, List.append_assoc]⟩ : occurs (str "walltime=") (pbs_cmd cpus none (some t) none))
  · have hmm := hm m rfl
    by_cases hc : cpus > 1
    · have hcmd : pbs_cmd cpus (some m) none none =
          flatten [Seg.lit (str "qsub -I "),
          Seg.lit (str "-l "),
          Seg.lit (str "ncpus="),
          Seg.var (natStr cpus),
          Seg.lit (str ","),
          Seg.lit (str "mem="),
          Seg.var (m),
          Seg.lit (str " -N "),
          Seg.lit (str "ikernel_remote"),
          Seg.lit (str " ")] := by
        simp [pbs_cmd, pbs_res, pyJoin, pyTruthy, flatten, segStr, hc, List.append_assoc]
      have hv : ∀ v, Seg.var v ∈ [Seg.lit (str "qsub -I "),
          Seg.lit (str "-l "),
          Seg.lit (str "ncpus="),
          Seg.var (natStr cpus),
          Seg.lit (str ","),
          Seg.lit (str "mem="),
          Seg.var (m),
          Seg.lit (str " -N "),
          Seg.lit (str "ikernel_remote"),
          Seg.lit (str " ")] → resvalOk v := by
        intro v hvm
        simp at hvm
        rcases hvm with rfl | rfl
        exacts [resvalOk_natStr cpus, hmm]
      refine ⟨iff_of_true ?_ hc, iff_of_true ?_ rfl, iff_of_false (hcmd ▸ noFlag_sound rfl hv) (by simp)⟩
      · exact occurs_trans (occursB_iff.mp (rfl : occursB (str "ncpus=") (str "ncpus=") = true))
          (⟨str "qsub -I " ++ str "-l ",
            natStr cpus ++ str "," ++ str "mem=" ++ m ++ str " -N " ++ str "ikernel_remote" ++ str " ",
            by simp [pbs_cmd, pbs_res, pyJoin, pyTruthy, hc, List.append_assoc]⟩ : occurs (str "ncpus=") (pbs_cmd cpus (some m) none none))
      · exact occurs_trans (occursB_iff.mp (rfl : occursB (str "mem=") (str "mem=") = true))
          (⟨str "qsub -I " ++ str "-l " ++ str "ncpus=" ++ natStr cpus ++ str ",",
            m ++ str " -N " ++ str "ikernel_remote" ++ str " ",
            by simp [pbs_cmd, pbs_res, pyJoin, pyTruthy, hc, List.append_assoc]⟩ : occurs (str "mem=") (pbs_cmd cpus (some m) none none))
    · have hcmd : pbs_cmd cpus (some m) none none =
          flatten [Seg.lit (str "qsub -I "),
          Seg.lit (str "-l "),
          Seg.lit (str "mem="),
          Seg.var (m),
          Seg.lit (str " -N "),
          Seg.lit (str "ikernel_remote"),
          Seg.lit (str " ")] := by
        simp [pbs_cmd, pbs_res, pyJoin, pyTruthy, flatten, segStr, hc, List.append_assoc]
      have hv : ∀ v, Seg.var v ∈ [Seg.lit (str "qsub -I "),
          Seg.lit (str "-l "),
          Seg.lit (str "mem="),
          Seg.var (m),
          Seg.lit (str " -N "),
          Seg.lit (str "ikernel_remote"),
          Seg.lit (str " ")] → resvalOk v := by
        intro v hvm
        simp at hvm
        rcases hvm with rfl
        exact hmm
      refine ⟨iff_of_false (hcmd ▸ noFlag_sound rfl hv) hc, iff_of_true ?_ rfl, iff_of_false (hcmd ▸ noFlag_sound rfl hv) (by simp)⟩
      · exact occurs_trans (occursB_iff.mp (rfl : occursB (str "mem=") (str "mem=") = true))
          (⟨str "qsub -I " ++ str "-l ",
            m ++ str " -N " ++ str "ikernel_remote" ++ str " ",
            by simp [pbs_cmd, pbs_res, pyJoin, pyTruthy, hc, List.append_assoc]⟩ : occurs (str "mem=") (pbs_cmd cpus (some m) none none))
  · have hmm := hm m rfl
    have htt := ht t rfl
    by_cases hc : cpus > 1
    · have hcmd : pbs_cmd cpus (some m) (some t) none =
          flatten [Seg.lit (str "qsub -I "),
          Seg.lit (str "-l "),
          Seg.lit (str "ncpus="),
          Seg.var (natStr cpus),
          Seg.lit (str ","),
          Seg.lit (str "mem="),
          Seg.var (m),
          Seg.lit (str ","),
          Seg.lit (str "walltime="),
          Seg.var (t),
          Seg.lit (str " -N "),
          Seg.lit (str "ikernel_remote"),
          Seg.lit (str " ")] := by
        simp [pbs_cmd, pbs_res, pyJoin, pyTruthy, flatten, segStr, hc, List.append_assoc]
      have hv : ∀ v, Seg.var v ∈ [Seg.lit (str "qsub -I "),
          Seg.lit (str "-l "),
          Seg.lit (str "ncpus="),
          Seg.var (natStr cpus),
          Seg.lit (str ","),
          Seg.lit (str "mem="),
          Seg.var (m),
          Seg.lit (str ","),
          Seg.lit (str "walltime="),
          Seg.var (t),
          Seg.lit (str " -N "),
          Seg.lit (str "ikernel_remote"),
          Seg.lit (str " ")] → resvalOk v := by
        intro v hvm
        simp at hvm
        rcases hvm with rfl | rfl | rfl
        exacts [resvalOk_natStr cpus, hmm, htt]
      refine ⟨iff_of_true ?_ hc, iff_of_true ?_ rfl, iff_of_true ?_ rfl⟩
      · exact occurs_trans (occursB_iff.mp (rfl : occursB (str "ncpus=") (str "ncpus=") = true))
          (⟨str "qsub -I " ++ str "-l ",
            natStr cpus ++ str "," ++ str "mem=" ++ m ++ str "," ++ str "walltime=" ++ t ++ str " -N " ++ str "ikernel_remote" ++ str " ",
            by simp [pbs_cmd, pbs_res, pyJoin, pyTruthy, hc, List.append_assoc]⟩ : occurs (str "ncpus=") (pbs_cmd cpus (some m) (some t) none))
      · exact occurs_trans (occursB_iff.mp (rfl : occursB (str "mem=") (str "mem=") = true))
          (⟨str "qsub -I " ++ str "-l " ++ str "ncpus=" ++ natStr cpus ++ str ",",
            m ++ str "," ++ str "walltime=" ++ t ++ str " -N " ++ str "ikernel_remote" ++ str " ",
            by simp [pbs_cmd, pbs_res, pyJoin, pyTruthy, hc, List.append_assoc]⟩ : occurs (str "mem=") (pbs_cmd cpus (some m) (some t) none))
      · exact occurs_trans (occursB_iff.mp (rfl : occursB (str "walltime=") (str "walltime=") = true))
          (⟨str "qsub -I " ++ str "-l " ++ str "ncpus=" ++ natStr cpus ++ str "," ++ str "mem=" ++ m ++ str ",",
            t ++ str " -N " ++ str "ikernel_remote" ++ str " ",
            by simp [pbs_cmd, pbs_res, pyJoin, pyTruthy, hc, List.append_assoc]⟩ : occurs (str "walltime=") (pbs_cmd cpus (some m) (some t) none))
    · have hcmd : pbs_cmd cpus (some m) (some t) none =
          flatten [Seg.lit (str "qsub -I "),
          Seg.lit (str "-l "),
          Seg.lit (str "mem="),
          Seg.var (m),
          Seg.lit (str ","),
          Seg.lit (str "walltime="),
          Seg.var (t),
          Seg.lit (str " -N "),
          Seg.lit (str "ikernel_remote"),
          Seg.lit (str " ")] := by
        simp [pbs_cmd, pbs_res, pyJoin, pyTruthy, flatten, segStr, hc, List.append_assoc]
      have hv : ∀ v, Seg.var v ∈ [Seg.lit (str "qsub -I "),
          Seg.lit (str "-l "),
          Seg.lit (str "mem="),
          Seg.var (m),
          Seg.lit (str ","),
          Seg.lit (str "walltime="),
          Seg.var (t),
          Seg.lit (str " -N "),
          Seg.lit (str "ikernel_remote"),
          Seg.lit (str " ")] → resvalOk v := by
        intro v hvm
        simp at hvm
        rcases hvm with rfl | rfl
        exacts [hmm, htt]
      refine ⟨iff_of_false (hcmd ▸ noFlag_sound rfl hv) hc, iff_of_true ?_ rfl, iff_of_true ?_ rfl⟩
      · exact occurs_trans (occursB_iff.mp (rfl : occursB (str "mem=") (str "mem=") = true))
          (⟨str "qsub -I " ++ str "-l ",
            m ++ str "," ++ str "walltime=" ++ t ++ str " -N " ++ str "ikernel_remote" ++ str " ",
            by simp [pbs_cmd, pbs_res, pyJoin, pyTruthy, hc, List.append_assoc]⟩ : occurs (str "mem=") (pbs_cmd cpus (some m) (some t) none))
      · exact occurs_trans (occursB_iff.mp (rfl : occursB (str "walltime=") (str "walltime=") = true))
          (⟨str "qsub -I " ++ str "-l " ++ str "mem=" ++ m ++ str ",",
            t ++ str " -N " ++ str "ikernel_remote" ++ str " ",
            by simp [pbs_cmd, pbs_res, pyJoin, pyTruthy, hc, List.append_assoc]⟩ : occurs (str "walltime=") (pbs_cmd cpus (some m) (some t) none))

/-- Flag presence for the sge launch command, by cases on the three
resource conditions. -/
theorem sge_flags_iff (cpus : Nat) (mem time : Option Str)
    (hm : resvalOkOpt mem) (ht : resvalOkOpt time) :
    (occurs (str "-pe") (sge_cmd cpus mem time (str "smp") none) ↔ cpus > 1) ∧
    (occurs (str "h_vmem=") (sge_cmd cpus mem time (str "smp") none) ↔ mem.isSome = true) ∧
    (occurs (str "h_rt=") (sge_cmd cpus mem time (str "smp") none) ↔ time.isSome = true) := by
  rcases mem with _ | m <;> rcases time with _ | t
  · by_cases hc : cpus > 1
    · have hcmd : sge_cmd cpus none none (str "smp") none =
          flatten [Seg.lit (str "qlogin -now n "),
          Seg.lit (str "-pe "),
          Seg.lit (str "smp"),
          Seg.lit (str " "),
          Seg.var (natStr cpus),
          Seg.lit (str " "),
          Seg.lit (str " -N "),
          Seg.lit (str "ikernel_remote"),
          Seg.lit (str " ")] := by
        simp [sge_cmd, sge_res, pyJoin, pyTruthy, flatten, segStr, hc, List.append_assoc]
      have hv : ∀ v, Seg.var v ∈ [Seg.lit (str "qlogin -now n "),
          Seg.lit (str "-pe "),
          Seg.lit (str "smp"),
          Seg.lit (str " "),
          Seg.var (natStr cpus),
          Seg.lit (str " "),
          Seg.lit (str " -N "),
          Seg.lit (str "ikernel_remote"),
          Seg.lit (str " ")] → resvalOk v := by
        intro v hvm
        simp at hvm
        rcases hvm with rfl
        exact resvalOk_natStr cpus
      refine ⟨iff_of_true ?_ hc, iff_of_false (hcmd ▸ noFlag_sound rfl hv) (by simp), iff_of_false (hcmd ▸ noFlag_sound rfl hv) (by simp)⟩
      · exact occurs_trans (occursB_iff.mp (rfl : occursB (str "-pe") (str "-pe ") = true))
          (⟨str "qlogin -now n ",
            str "smp" ++ str " " ++ natStr cpus ++ str " " ++ str " -N " ++ str "ikernel_remote" ++ str " ",
            by simp [sge_cmd, sge_res, pyJoin, pyTruthy, hc, List.append_assoc]⟩ : occurs (str "-pe ") (sge_cmd cpus none none (str "smp") none))
    · have hcmd : sge_cmd cpus none none (str "smp") none =
          flatten [Seg.lit (str "qlogin -now n "),
          Seg.lit (str " "),
          Seg.lit (str " -N "),
          Seg.lit (str "ikernel_remote"),
          Seg.lit (str " ")] := by
        simp [sge_cmd, sge_res, pyJoin, pyTruthy, flatten, segStr, hc, List.append_assoc]
      refine ⟨iff_of_false (hcmd ▸ noFlag_sound rfl (fun v hvm => by simp at hvm)) hc, iff_of_false (hcmd ▸ noFlag_sound rfl (fun v hvm => by simp at hvm)) (by simp), iff_of_false (hcmd ▸ noFlag_sound rfl (fun v hvm => by simp at hvm)) (by simp)⟩
  · have htt := ht t rfl
    by_cases hc : cpus > 1
    · have hcmd : sge_cmd cpus none (some t) (str "smp") none =
          flatten [Seg.lit (str "qlogin -now n "),
          Seg.lit (str "-pe "),
          Seg.lit (str "smp"),
          Seg.lit (str " "),
          Seg.var (natStr cpus),
          Seg.lit (str " "),
          Seg.lit (str "-l "),
          Seg.lit (str "h_rt="),
          Seg.var (t),
          Seg.lit (str " -N "),
          Seg.lit (str "ikernel_remote"),
          Seg.lit (str " ")] := by
        simp [sge_cmd, sge_res, pyJoin, pyTruthy, flatten, segStr, hc, List.append_assoc]
      have hv : ∀ v, Seg.var v ∈ [Seg.lit (str "qlogin -now n "),
          Seg.lit (str "-pe "),
          Seg.lit (str "smp"),
          Seg.lit (str " "),
          Seg.var (natStr cpus),
          Seg.lit (str " "),
          Seg.lit (str "-l "),
          Seg.lit (str "h_rt="),
          Seg.var (t),
          Seg.lit (str " -N "),
          Seg.lit (str "ikernel_remote"),
          Seg.lit (str " ")] → resvalOk v := by
        intro v hvm
        simp at hvm
        rcases hvm with rfl | rfl
        exacts [resvalOk_natStr cpus, htt]
      refine ⟨iff_of_true ?_ hc, iff_of_false (hcmd ▸ noFlag_sound rfl hv) (by simp), iff_of_true ?_ rfl⟩
      · exact occurs_trans (occursB_iff.mp (rfl : occursB (str "-pe") (str "-pe ") = true))
          (⟨str "qlogin -now n ",
            str "smp" ++ str " " ++ natStr cpus ++ str " " ++ str "-l " ++ str "h_rt=" ++ t ++ str " -N " ++ str "ikernel_remote" ++ str " ",
            by simp [sge_cmd, sge_res, pyJoin, pyTruthy, hc, List.append_assoc]⟩ : occurs (str "-pe ") (sge_cmd cpus none (some t) (str "smp") none))
      · exact occurs_trans (occursB_iff.mp (rfl : occursB (str "h_rt=") (str "h_rt=") = true))
          (⟨str "qlogin -now n " ++ str "-pe " ++ str "smp" ++ str " " ++ natStr cpus ++ str " " ++ str "-l ",
            t ++ str " -N " ++ str "ikernel_remote" ++ str " ",
            by simp [sge_cmd, sge_res, pyJoin, pyTruthy, hc, List.append_assoc]⟩ : occurs (str "h_rt=") (sge_cmd cpus none (some t) (str "smp") none))
    · have hcmd : sge_cmd cpus none (some t) (str "smp") none =
          flatten [Seg.lit (str "qlogin -now n "),
          Seg.lit (str " "),
          Seg.lit (str "-l "),
          Seg.lit (str "h_rt="),
          Seg.var (t),
          Seg.lit (str " -N "),
          Seg.lit (str "ikernel_remote"),
          Seg.lit (str " ")] := by
        simp [sge_cmd, sge_res, pyJoin, pyTruthy, flatten, segStr, hc, List.append_assoc]
      have hv : ∀ v, Seg.var v ∈ [Seg.lit (str "qlogin -now n "),
          Seg.lit (str " "),
          Seg.lit (str "-l "),
          Seg.lit (str "h_rt="),
          Seg.var (t),
          Seg.lit (str " -N "),
          Seg.lit (str "ikernel_remote"),
          Seg.lit (str " ")] → resvalOk v := by
        intro v hvm
        simp at hvm
        rcases hvm with rfl
        exact htt
      refine ⟨iff_of_false (hcmd ▸ noFlag_sound rfl hv) hc, iff_of_false (hcmd ▸ noFlag_sound rfl hv) (by simp), iff_of_true ?_ rfl⟩
      · exact occurs_trans (occursB_iff.mp (rfl : occursB (str "h_rt=") (str "h_rt=") = true))
          (⟨str "qlogin -now n " ++ str " " ++ str "-l ",
            t ++ str " -N " ++ str "ikernel_remote" ++ str " ",
            by simp [sge_cmd, sge_res, pyJoin, pyTruthy, hc, List.append_assoc]⟩ : occurs (str "h_rt=") (sge_cmd cpus none (some t) (str "smp") none))
  · have hmm := hm m rfl
    by_cases hc : cpus > 1
    · have hcmd : sge_cmd cpus (some m) none (str "smp") none =
          flatten [Seg.lit (str "qlogin -now n "),
          Seg.lit (str "-pe "),
          Seg.lit (str "smp"),
          Seg.lit (str " "),
          Seg.var (natStr cpus),
          Seg.lit (str " "),
          Seg.lit (str "-l "),
          Seg.lit (str "h_vmem="),
          Seg.var (m),
          Seg.lit (str " -N "),
          Seg.lit (str "ikernel_remote"),
          Seg.lit (str " ")] := by
        simp [sge_cmd, sge_res, pyJoin, pyTruthy, flatten, segStr, hc, List.append_assoc]
      have hv : ∀ v, Seg.var v ∈ [Seg.lit (str "qlogin -now n "),
          Seg.lit (str "-pe "),
          Seg.lit (str "smp"),
          Seg.lit (str " "),
          Seg.var (natStr cpus),
          Seg.lit (str " "),
          Seg.lit (str "-l "),
          Seg.lit (str "h_vmem="),
          Seg.var (m),
          Seg.lit (str " -N "),
          Seg.lit (str "ikernel_remote"),
          Seg.lit (str " ")] → resvalOk v := by
        intro v hvm
        simp at hvm
        rcases hvm with rfl | rfl
        exacts [resvalOk_natStr cpus, hmm]
      refine ⟨iff_of_true ?_ hc, iff_of_true ?_ rfl, iff_of_false (hcmd ▸ noFlag_sound rfl hv) (by simp)⟩
      · exact occurs_trans (occursB_iff.mp (rfl : occursB (str "-pe") (str "-pe ") = true))
          (⟨str "qlogin -now n ",
            str "smp" ++ str " " ++ natStr cpus ++ str " " ++ str "-l " ++ str "h_vmem=" ++ m ++ str " -N " ++ str "ikernel_remote" ++ str " ",
            by simp [sge_cmd, sge_res, pyJoin, pyTruthy, hc, List.append_assoc]⟩ : occurs (str "-pe ") (sge_cmd cpus (some m) none (str "smp") none))
      · exact occurs_trans (occursB_iff.mp (rfl : occursB (str "h_vmem=") (str "h_vmem=") = true))
          (⟨str "qlogin -now n " ++ str "-pe " ++ str "smp" ++ str " " ++ natStr cpus ++ str " " ++ str "-l ",
            m ++ str " -N " ++ str "ikernel_remote" ++ str " ",
            by simp [sge_cmd, sge_res, pyJoin, pyTruthy, hc, List.append_assoc]⟩ : occurs (str "h_vmem=") (sge_cmd cpus (some m) none (str "smp") none))
    · have hcmd : sge_cmd cpus (some m) none (str "smp") none =
          flatten [Seg.lit (str "qlogin -now n "),
          Seg.lit (str " "),
          Seg.lit (str "-l "),
          Seg.lit (str "h_vmem="),
          Seg.var (m),
          Seg.lit (str " -N "),
          Seg.lit (str "ikernel_remote"),
          Seg.lit (str " ")] := by
        simp [sge_cmd, sge_res, pyJoin, pyTruthy, flatten, segStr, hc, List.append_assoc]
      have hv : ∀ v, Seg.var v ∈ [Seg.lit (str "qlogin -now n "),
          Seg.lit (str " "),
          Seg.lit (str "-l "),
          Seg.lit (str "h_vmem="),
          Seg.var (m),
          Seg.lit (str " -N "),
          Seg.lit (str "ikernel_remote"),
          Seg.lit (str " ")] → resvalOk v := by
        intro v hvm
        simp at hvm
        rcases hvm with rfl
        exact hmm
      refine ⟨iff_of_false (hcmd ▸ noFlag_sound rfl hv) hc, iff_of_true ?_ rfl, iff_of_false (hcmd ▸ noFlag_sound rfl hv) (by simp)⟩
      · exact occurs_trans (occursB_iff.mp (rfl : occursB (str "h_vmem=") (str "h_vmem=") = true))
          (⟨str "qlogin -now n " ++ str " " ++ str "-l ",
            m ++ str " -N " ++ str "ikernel_remote" ++ str " ",
            by simp [sge_cmd, sge_res, pyJoin, pyTruthy, hc, List.append_assoc]⟩ : occurs (str "h_vmem=") (sge_cmd cpus (some m) none (str "smp") none))
  · have hmm := hm m rfl
    have htt := ht t rfl
    by_cases hc : cpus > 1
    · have hcmd : sge_cmd cpus (some m) (some t) (str "smp") none =
          flatten [Seg.lit (str "qlogin -now n "),
          Seg.lit (str "-pe "),
          Seg.lit (str "smp"),
          Seg.lit (str " "),
          Seg.var (natStr cpus),
          Seg.lit (str " "),
          Seg.lit (str "-l "),
          Seg.lit (str "h_vmem="),
          Seg.var (m),
          Seg.lit (str ","),
          Seg.lit (str "h_rt="),
          Seg.var (t),
          Seg.lit (str " -N "),
          Seg.lit (str "ikernel_remote"),
          Seg.lit (str " ")] := by
        simp [sge_cmd, sge_res, pyJoin, pyTruthy, flatten, segStr, hc, List.append_assoc]
      have hv : ∀ v, Seg.var v ∈ [Seg.lit (str "qlogin -now n "),
          Seg.lit (str "-pe "),
          Seg.lit (str "smp"),
          Seg.lit (str " "),
          Seg.var (natStr cpus),
          Seg.lit (str " "),
          Seg.lit (str "-l "),
          Seg.lit (str "h_vmem="),
          Seg.var (m),
          Seg.lit (str ","),
          Seg.lit (str "h_rt="),
          Seg.var (t),
          Seg.lit (str " -N "),
          Seg.lit (str "ikernel_remote"),
          Seg.lit (str " ")] → resvalOk v := by
        intro v hvm
        simp at hvm
        rcases hvm with rfl | rfl | rfl
        exacts [resvalOk_natStr cpus, hmm, htt]
      refine ⟨iff_of_true ?_ hc, iff_of_true ?_ rfl, iff_of_true ?_ rfl⟩
      · exact occurs_trans (occursB_iff.mp (rfl : occursB (str "-pe") (str "-pe ") = true))
          (⟨str "qlogin -now n ",
            str "smp" ++ str " " ++ natStr cpus ++ str " " ++ str "-l " ++ str "h_vmem=" ++ m ++ str "," ++ str "h_rt=" ++ t ++ str " -N " ++ str "ikernel_remote" ++ str " ",
            by simp [sge_cmd, sge_res, pyJoin, pyTruthy, hc, List.append_assoc]⟩ : occurs (str "-pe ") (sge_cmd cpus (some m) (some t) (str "smp") none))
      · exact occurs_trans (occursB_iff.mp (rfl : occursB (str "h_vmem=") (str "h_vmem=") = true))
          (⟨str "qlogin -now n " ++ str "-pe " ++ str "smp" ++ str " " ++ natStr cpus ++ str " " ++ str "-l ",
            m ++ str "," ++ str "h_rt=" ++ t ++ str " -N " ++ str "ikernel_remote" ++ str " ",
            by simp [sge_cmd, sge_res, pyJoin, pyTruthy, hc, List.append_assoc]⟩ : occurs (str "h_vmem=") (sge_cmd cpus (some m) (some t) (str "smp") none))
      · exact occurs_trans (occursB_iff.mp (rfl : occursB (str "h_rt=") (str "h_rt=") = true))
          (⟨str "qlogin -now n " ++ str "-pe " ++ str "smp" ++ str " " ++ natStr cpus ++ str " " ++ str "-l " ++ str "h_vmem=" ++ m ++ str ",",
            t ++ str " -N " ++ str "ikernel_remote" ++ str " ",
            by simp [sge_cmd, sge_res, pyJoin, pyTruthy, hc, List.append_assoc]⟩ : occurs (str "h_rt=") (sge_cmd cpus (some m) (some t) (str "smp") none))
    · have hcmd : sge_cmd cpus (some m) (some t) (str "smp") none =
          flatten [Seg.lit (str "qlogin -now n "),
          Seg.lit (str " "),
          Seg.lit (str "-l "),
          Seg.lit (str "h_vmem="),
          Seg.var (m),
          Seg.lit (str ","),
          Seg.lit (str "h_rt="),
          Seg.var (t),
          Seg.lit (str " -N "),
          Seg.lit (str "ikernel_remote"),
          Seg.lit (str " ")] := by
        simp [sge_cmd, sge_res, pyJoin, pyTruthy, flatten, segStr, hc, List.append_assoc]
      have hv : ∀ v, Seg.var v ∈ [Seg.lit (str "qlogin -now n "),
          Seg.lit (str " "),
          Seg.lit (str "-l "),
          Seg.lit (str "h_vmem="),
          Seg.var (m),
          Seg.lit (str ","),
          Seg.lit (str "h_rt="),
          Seg.var (t),
          Seg.lit (str " -N "),
          Seg.lit (str "ikernel_remote"),
          Seg.lit (str " ")] → resvalOk v := by
        intro v hvm
        simp at hvm
        rcases hvm with rfl | rfl
        exacts [hmm, htt]
      refine ⟨iff_of_false (hcmd ▸ noFlag_sound rfl hv) hc, iff_of_true ?_ rfl, iff_of_true ?_ rfl⟩
      · exact occurs_trans (occursB_iff.mp (rfl : occursB (str "h_vmem=") (str "h_vmem=") = true))
          (⟨str "qlogin -now n " ++ str " " ++ str "-l ",
            m ++ str "," ++ str "h_rt=" ++ t ++ str " -N " ++ str "ikernel_remote" ++ str " ",
            by simp [sge_cmd, sge_res, pyJoin, pyTruthy, hc, List.append_assoc]⟩ : occurs (str "h_vmem=") (sge_cmd cpus (some m) (some t) (str "smp") none))
      · exact occurs_trans (occursB_iff.mp (rfl : occursB (str "h_rt=") (str "h_rt=") = true))
          (⟨str "qlogin -now n " ++ str " " ++ str "-l " ++ str "h_vmem=" ++ m ++ str ",",
            t ++ str " -N " ++ str "ikernel_remote" ++ str " ",
            by simp [sge_cmd, sge_res, pyJoin, pyTruthy, hc, List.append_assoc]⟩ : occurs (str "h_rt=") (sge_cmd cpus (some m) (some t) (str "smp") none))

/-- Flag presence for the slurm launch command, by cases on the three
resource conditions. -/
theorem slurm_flags_iff (cpus : Nat) (mem time : Option Str)
    (hm : resvalOkOpt mem) (ht : resvalOkOpt time) :
    (occurs (str "--cpus-per-task") (slurm_cmd cpus mem time none) ↔ cpus > 1) ∧
    (occurs (str "--mem") (slurm_cmd cpus mem time none) ↔ mem.isSome = true) ∧
    (occurs (str "--time") (slurm_cmd cpus mem time none) ↔ time.isSome = true) := by
  rcases mem with _ | m <;> rcases time with _ | t
  · by_cases hc : cpus > 1
    · have hcmd : slurm_cmd cpus none none none =
          flatten [Seg.lit (str "srun"),
          Seg.lit (str " --cpus-per-task "),
          Seg.var (natStr cpus),
          Seg.lit (str " -J "),
          Seg.lit (str "ikernel_remote"),
          Seg.lit (str " "),
          Seg.lit (str " -v -u bash -i")] := by
        simp [slurm_cmd, slurm_opts, pyJoin, pyTruthy, flatten, segStr, hc, List.append_assoc]
      have hv : ∀ v, Seg.var v ∈ [Seg.lit (str "srun"),
          Seg.lit (str " --cpus-per-task "),
          Seg.var (natStr cpus),
          Seg.lit (str " -J "),
          Seg.lit (str "ikernel_remote"),
          Seg.lit (str " "),
          Seg.lit (str " -v -u bash -i")] → resvalOk v := by
        intro v hvm
        simp at hvm
        rcases hvm with rfl
        exact resvalOk_natStr cpus
      refine ⟨iff_of_true ?_ hc, iff_of_false (hcmd ▸ noFlag_sound rfl hv) (by simp), iff_of_false (hcmd ▸ noFlag_sound rfl hv) (by simp)⟩
      · exact occurs_trans (occursB_iff.mp (rfl : occursB (str "--cpus-per-task") (str " --cpus-per-task ") = true))
          (⟨str "srun",
            natStr cpus ++ str " -J " ++ str "ikernel_remote" ++ str " " ++ str " -v -u bash -i",
            by simp [slurm_cmd, slurm_opts, pyJoin, pyTruthy, hc, List.append_assoc]⟩ : occurs (str " --cpus-per-task ") (slurm_cmd cpus none none none))
    · have hcmd : slurm_cmd cpus none none none =
          flatten [Seg.lit (str "srun"),
          Seg.lit (str " -J "),
          Seg.lit (str "ikernel_remote"),
          Seg.lit (str " "),
          Seg.lit (str " -v -u bash -i")] := by
        simp [slurm_cmd, slurm_opts, pyJoin, pyTruthy, flatten, segStr, hc, List.append_assoc]
      refine ⟨iff_of_false (hcmd ▸ noFlag_sound rfl (fun v hvm => by simp at hvm)) hc, iff_of_false (hcmd ▸ noFlag_sound rfl (fun v hvm => by simp at hvm)) (by simp), iff_of_false (hcmd ▸ noFlag_sound rfl (fun v hvm => by simp at hvm)) (by simp)⟩
  · have htt := ht t rfl
    by_cases hc : cpus > 1
    · have hcmd : slurm_cmd cpus none (some t) none =
          flatten [Seg.lit (str "srun"),
          Seg.lit (str " --cpus-per-task "),
          Seg.var (natStr cpus),
          Seg.lit (str " --time "),
          Seg.var (t),
          Seg.lit (str " -J "),
          Seg.lit (str "ikernel_remote"),
          Seg.lit (str " "),
          Seg.lit (str " -v -u bash -i")] := by
        simp [slurm_cmd, slurm_opts, pyJoin, pyTruthy, flatten, segStr, hc, List.append_assoc]
      have hv : ∀ v, Seg.var v ∈ [Seg.lit (str "srun"),
          Seg.lit (str " --cpus-per-task "),
          Seg.var (natStr cpus),
          Seg.lit (str " --time "),
          Seg.var (t),
          Seg.lit (str " -J "),
          Seg.lit (str "ikernel_remote"),
          Seg.lit (str " "),
          Seg.lit (str " -v -u bash -i")] → resvalOk v := by
        intro v hvm
        simp at hvm
        rcases hvm with rfl | rfl
        exacts [resvalOk_natStr cpus, htt]
      refine ⟨iff_of_true ?_ hc, iff_of_false (hcmd ▸ noFlag_sound rfl hv) (by simp), iff_of_true ?_ rfl⟩
      · exact occurs_trans (occursB_iff.mp (rfl : occursB (str "--cpus-per-task") (str " --cpus-per-task ") = true))
          (⟨str "srun",
            natStr cpus ++ str " --time " ++ t ++ str " -J " ++ str "ikernel_remote" ++ str " " ++ str " -v -u bash -i",
            by simp [slurm_cmd, slurm_opts, pyJoin, pyTruthy, hc, List.append_assoc]⟩ : occurs (str " --cpus-per-task ") (slurm_cmd cpus none (some t) none))
      · exact occurs_trans (occursB_iff.mp (rfl : occursB (str "--time") (str " --time ") = true))
          (⟨str "srun" ++ str " --cpus-per-task " ++ natStr cpus,
            t ++ str " -J " ++ str "ikernel_remote" ++ str " " ++ str " -v -u bash -i",
            by simp [slurm_cmd, slurm_opts, pyJoin, pyTruthy, hc, List.append_assoc]⟩ : occurs (str " --time ") (slurm_cmd cpus none (some t) none))
    · have hcmd : slurm_cmd cpus none (some t) none =
          flatten [Seg.lit (str "srun"),
          Seg.lit (str " --time "),
          Seg.var (t),
          Seg.lit (str " -J "),
          Seg.lit (str "ikernel_remote"),
          Seg.lit (str " "),
          Seg.lit (str " -v -u bash -i")] := by
        simp [slurm_cmd, slurm_opts, pyJoin, pyTruthy, flatten, segStr, hc, List.append_assoc]
      have hv : ∀ v, Seg.var v ∈ [Seg.lit (str "srun"),
          Seg.lit (str " --time "),
          Seg.var (t),
          Seg.lit (str " -J "),
          Seg.lit (str "ikernel_remote"),
          Seg.lit (str " "),
          Seg.lit (str " -v -u bash -i")] → resvalOk v := by
        intro v hvm
        simp at hvm
        rcases hvm with rfl
        exact htt
      refine ⟨iff_of_false (hcmd ▸ noFlag_sound rfl hv) hc, iff_of_false (hcmd ▸ noFlag_sound rfl hv) (by simp), iff_of_true ?_ rfl⟩
      · exact occurs_trans (occursB_iff.mp (rfl : occursB (str "--time") (str " --time ") = true))
          (⟨str "srun",
            t ++ str " -J " ++ str "ikernel_remote" ++ str " " ++ str " -v -u bash -i",
            by simp [slurm_cmd, slurm_opts, pyJoin, pyTruthy, hc, List.append_assoc]⟩ : occurs (str " --time ") (slurm_cmd cpus none (some t) none))
  · have hmm := hm m rfl
    by_cases hc : cpus > 1
    · have hcmd : slurm_cmd cpus (some m) none none =
          flatten [Seg.lit (str "srun"),
          Seg.lit (str " --cpus-per-task "),
          Seg.var (natStr cpus),
          Seg.lit (str " --mem "),
          Seg.var (m),
          Seg.lit (str " -J "),
          Seg.lit (str "ikernel_remote"),
          Seg.lit (str " "),
          Seg.lit (str " -v -u bash -i")] := by
        simp [slurm_cmd, slurm_opts, pyJoin, pyTruthy, flatten, segStr, hc, List.append_assoc]
      have hv : ∀ v, Seg.var v ∈ [Seg.lit (str "srun"),
          Seg.lit (str " --cpus-per-task "),
          Seg.var (natStr cpus),
          Seg.lit (str " --mem "),
          Seg.var (m),
          Seg.lit (str " -J "),
          Seg.lit (str "ikernel_remote"),
          Seg.lit (str " "),
          Seg.lit (str " -v -u bash -i")] → resvalOk v := by
        intro v hvm
        simp at hvm
        rcases hvm with rfl | rfl
        exacts [resvalOk_natStr cpus, hmm]
      refine ⟨iff_of_true ?_ hc, iff_of_true ?_ rfl, iff_of_false (hcmd ▸ noFlag_sound rfl hv) (by simp)⟩
      · exact occurs_trans (occursB_iff.mp (rfl : occursB (str "--cpus-per-task") (str " --cpus-per-task ") = true))
          (⟨str "srun",
            natStr cpus ++ str " --mem " ++ m ++ str " -J " ++ str "ikernel_remote" ++ str " " ++ str " -v -u bash -i",
            by simp [slurm_cmd, slurm_opts, pyJoin, pyTruthy, hc, List.append_assoc]⟩ : occurs (str " --cpus-per-task ") (slurm_cmd cpus (some m) none none))
      · exact occurs_trans (occursB_iff.mp (rfl : occursB (str "--mem") (str " --mem ") = true))
          (⟨str "srun" ++ str " --cpus-per-task " ++ natStr cpus,
            m ++ str " -J " ++ str "ikernel_remote" ++ str " " ++ str " -v -u bash -i",
            by simp [slurm_cmd, slurm_opts, pyJoin, pyTruthy, hc, List.append_assoc]⟩ : occurs (str " --mem ") (slurm_cmd cpus (some m) none none))
    · have hcmd : slurm_cmd cpus (some m) none none =
          flatten [Seg.lit (str "srun"),
          Seg.lit (str " --mem "),
          Seg.var (m),
          Seg.lit (str " -J "),
          Seg.lit (str "ikernel_remote"),
          Seg.lit (str " "),
          Seg.lit (str " -v -u bash -i")] := by
        simp [slurm_cmd, slurm_opts, pyJoin, pyTruthy, flatten, segStr, hc, List.append_assoc]
      have hv : ∀ v, Seg.var v ∈ [Seg.lit (str "srun"),
          Seg.lit (str " --mem "),
          Seg.var (m),
          Seg.lit (str " -J "),
          Seg.lit (str "ikernel_remote"),
          Seg.lit (str " "),
          Seg.lit (str " -v -u bash -i")] → resvalOk v := by
        intro v hvm
        simp at hvm
        rcases hvm with rfl
        exact hmm
      refine ⟨iff_of_false (hcmd ▸ noFlag_sound rfl hv) hc, iff_of_true ?_ rfl, iff_of_false (hcmd ▸ noFlag_sound rfl hv) (by simp)⟩
      · exact occurs_trans (occursB_iff.mp (rfl : occursB (str "--mem") (str " --mem ") = true))
          (⟨str "srun",
            m ++ str " -J " ++ str "ikernel_remote" ++ str " " ++ str " -v -u bash -i",
            by simp [slurm_cmd, slurm_opts, pyJoin, pyTruthy, hc, List.append_assoc]⟩ : occurs (str " --mem ") (slurm_cmd cpus (some m) none none))
  · have hmm := hm m rfl
    have htt := ht t rfl
    by_cases hc : cpus > 1
    · have hcmd : slurm_cmd cpus (some m) (some t) none =
          flatten [Seg.lit (str "srun"),
          Seg.lit (str " --cpus-per-task "),
          Seg.var (natStr cpus),
          Seg.lit (str " --mem "),
          Seg.var (m),
          Seg.lit (str " --time "),
          Seg.var (t),
          Seg.lit (str " -J "),
          Seg.lit (str "ikernel_remote"),
          Seg.lit (str " "),
          Seg.lit (str " -v -u bash -i")] := by
        simp [slurm_cmd, slurm_opts, pyJoin, pyTruthy, flatten, segStr, hc, List.append_assoc]
      have hv : ∀ v, Seg.var v ∈ [Seg.lit (str "srun"),
          Seg.lit (str " --cpus-per-task "),
          Seg.var (natStr cpus),
          Seg.lit (str " --mem "),
          Seg.var (m),
          Seg.lit (str " --time "),
          Seg.var (t),
          Seg.lit (str " -J "),
          Seg.lit (str "ikernel_remote"),
          Seg.lit (str " "),
          Seg.lit (str " -v -u bash -i")] → resvalOk v := by
        intro v hvm
        simp at hvm
        rcases hvm with rfl | rfl | rfl
        exacts [resvalOk_natStr cpus, hmm, htt]
      refine ⟨iff_of_true ?_ hc, iff_of_true ?_ rfl, iff_of_true ?_ rfl⟩
      · exact occurs_trans (occursB_iff.mp (rfl : occursB (str "--cpus-per-task") (str " --cpus-per-task ") = true))
          (⟨str "srun",
            natStr cpus ++ str " --mem " ++ m ++ str " --time " ++ t ++ str " -J " ++ str "ikernel_remote" ++ str " " ++ str " -v -u bash -i",
            by simp [slurm_cmd, slurm_opts, pyJoin, pyTruthy, hc, List.append_assoc]⟩ : occurs (str " --cpus-per-task ") (slurm_cmd cpus (some m) (some t) none))
      · exact occurs_trans (occursB_iff.mp (rfl : occursB (str "--mem") (str " --mem ") = true))
          (⟨str "srun" ++ str " --cpus-per-task " ++ natStr cpus,
            m ++ str " --time " ++ t ++ str " -J " ++ str "ikernel_remote" ++ str " " ++ str " -v -u bash -i",
            by simp [slurm_cmd, slurm_opts, pyJoin, pyTruthy, hc, List.append_assoc]⟩ : occurs (str " --mem ") (slurm_cmd cpus (some m) (some t) none))
      · exact occurs_trans (occursB_iff.mp (rfl : occursB (str "--time") (str " --time ") = true))
          (⟨str "srun" ++ str " --cpus-per-task " ++ natStr cpus ++ str " --mem " ++ m,
            t ++ str " -J " ++ str "ikernel_remote" ++ str " " ++ str " -v -u bash -i",
            by simp [slurm_cmd, slurm_opts, pyJoin, pyTruthy, hc, List.append_assoc]⟩ : occurs (str " --time ") (slurm_cmd cpus (some m) (some t) none))
    · have hcmd : slurm_cmd cpus (some m) (some t) none =
          flatten [Seg.lit (str "srun"),
          Seg.lit (str " --mem "),
          Seg.var (m),
          Seg.lit (str " --time "),
          Seg.var (t),
          Seg.lit (str " -J "),
          Seg.lit (str "ikernel_remote"),
          Seg.lit (str " "),
          Seg.lit (str " -v -u bash -i")] := by
        simp [slurm_cmd, slurm_opts, pyJoin, pyTruthy, flatten, segStr, hc, List.append_assoc]
      have hv : ∀ v, Seg.var v ∈ [Seg.lit (str "srun"),
          Seg.lit (str " --mem "),
          Seg.var (m),
          Seg.lit (str " --time "),
          Seg.var (t),
          Seg.lit (str " -J "),
          Seg.lit (str "ikernel_remote"),
          Seg.lit (str " "),
          Seg.lit (str " -v -u bash -i")] → resvalOk v := by
        intro v hvm
        simp at hvm
        rcases hvm with rfl | rfl
        exacts [hmm, htt]
      refine ⟨iff_of_false (hcmd ▸ noFlag_sound rfl hv) hc, iff_of_true ?_ rfl, iff_of_true ?_ rfl⟩
      · exact occurs_trans (occursB_iff.mp (rfl : occursB (str "--mem") (str " --mem ") = true))
          (⟨str "srun",
            m ++ str " --time " ++ t ++ str " -J " ++ str "ikernel_remote" ++ str " " ++ str " -v -u bash -i",
            by simp [slurm_cmd, slurm_opts, pyJoin, pyTruthy, hc, List.append_assoc]⟩ : occurs (str " --mem ") (slurm_cmd cpus (some m) (some t) none))
      · exact occurs_trans (occursB_iff.mp (rfl : occursB (str "--time") (str " --time ") = true))
          (⟨str "srun" ++ str " --mem " ++ m,
            t ++ str " -J " ++ str "ikernel_remote" ++ str " " ++ str " -v -u bash -i",
            by simp [slurm_cmd, slurm_opts, pyJoin, pyTruthy, hc, List.append_assoc]⟩ : occurs (str " --time ") (slurm_cmd cpus (some m) (some t) none))

/-- C1: for every one of the five SchedulerAdapter variants (local,
ssh, pbs, sge, slurm), the launch command line built from the resource
request contains the cpu/parallel flag of the variant if and only if
`cpus > 1`, the memory flag if and only if `mem` is non-null, and the
walltime flag if and only if `time` is non-null.  `variantFlag` assigns
the flag text per variant and resource field (the local and ssh
variants take no resource flags, so the property is vacuous there);
resource values are assumed benign (digits, `:`, `.`, `G`/`M`/`K`) and
`pe`/`launch_args` are at their source defaults. -/
theorem C1_scheduler_flags (i : Iface) (k : ResKind) (f : Str)
    (hf : variantFlag i k = some f)
    (cpus : Nat) (mem time : Option Str)
    (hm : resvalOkOpt mem) (ht : resvalOkOpt time)
    (host : Option Str) (port_remote port_local : Nat) :
    occurs f (launchCmd i cpus mem time (str "smp") none host port_remote port_local) ↔
      flagCond k cpus mem time := by
  cases i with
  | iLocal => cases k <;> exact absurd hf (by simp [variantFlag])
  | iSsh => cases k <;> exact absurd hf (by simp [variantFlag])
  | iPbs =>
    cases k with
    | cpusR =>
      simp only [variantFlag] at hf
      injection hf with hf
      subst hf
      simpa [launchCmd, flagCond] using (pbs_flags_iff cpus mem time hm ht).1
    | memR =>
      simp only [variantFlag] at hf
      injection hf with hf
      subst hf
      simpa [launchCmd, flagCond] using (pbs_flags_iff cpus mem time hm ht).2.1
    | timeR =>
      simp only [variantFlag] at hf
      injection hf with hf
      subst hf
      simpa [launchCmd, flagCond] using (pbs_flags_iff cpus mem time hm ht).2.2
  | iSge =>
    cases k with
    | cpusR =>
      simp only [variantFlag] at hf
      injection hf with hf
      subst hf
      simpa [launchCmd, flagCond] using (sge_flags_iff cpus mem time hm ht).1
    | memR =>
      simp only [variantFlag] at hf
      injection hf with hf
      subst hf
      simpa [launchCmd, flagCond] using (sge_flags_iff cpus mem time hm ht).2.1
    | timeR =>
      simp only [variantFlag] at hf
      injection hf with hf
      subst hf
      simpa [launchCmd, flagCond] using (sge_flags_iff cpus mem time hm ht).2.2
  | iSlurm =>
    cases k with
    | cpusR =>
      simp only [variantFlag] at hf
      injection hf with hf
      subst hf
      simpa [launchCmd, flagCond] using (slurm_flags_iff cpus mem time hm ht).1
    | memR =>
      simp only [variantFlag] at hf
      injection hf with hf
      subst hf
      simpa [launchCmd, flagCond] using (slurm_flags_iff cpus mem time hm ht).2.1
    | timeR =>
      simp only [variantFlag] at hf
      injection hf with hf
      subst hf
      simpa [launchCmd, flagCond] using (slurm_flags_iff cpus mem time hm ht).2.2

/-- Witness for C1 at a concrete input: the PBS memory flag with
`cpus = 1`, `mem = "4G"`, `time = None`. -/
theorem C1_scheduler_flags_witness :
    variantFlag Iface.iPbs ResKind.memR = some (str "mem=") ∧
    (occurs (str "mem=")
        (launchCmd Iface.iPbs 1 (some (str "4G")) none (str "smp") none none 0 0) ↔
      flagCond ResKind.memR 1 (some (str "4G")) none) :=
  ⟨rfl,
    C1_scheduler_flags Iface.iPbs ResKind.memR (str "mem=") rfl 1
      (some (str "4G")) none
      (fun s hs => by cases hs; exact ⟨by decide, by decide⟩)
      (fun s hs => by cases hs)
      none 0 0⟩

/-! ## PromptScanner (`check_password` in `kernel.py`)

`check_password` classifies each nonblocking read with
the passphrase regex (`Enter passphrase .*:`) first and the password
regex (`.*@.* password:`) second (if/elif).  The two regex
searches are embedded as executable matchers over `Str`, with their
declarative semantics proved as an iff (`.` does not match a newline). -/

/-- The literal part of the passphrase pattern. -/
def ppLit : Str := str "Enter passphrase "

/-- The literal part of the password pattern. -/
def pwLit : Str := str " password:"

/-- `litAfterNoNL lit r` holds when `r = b ++ lit ++ rest` for some
newline-free `b` (the `.*lit` fragment of a regex search). -/
def litAfterNoNL (lit : Str) : Str → Bool
  | [] => lit.isPrefixOf []
  | c :: cs => lit.isPrefixOf (c :: cs) || (c != '\n' && litAfterNoNL lit cs)

/-- The search for `Enter passphrase .*:` succeeds. -/
def matchesPassphrase (s : Str) : Bool :=
  s.tails.any fun t => ppLit.isPrefixOf t && litAfterNoNL [':'] (t.drop ppLit.length)

/-- The search for `.*@.* password:` succeeds (the leading `.*` may be
empty, so only the `@`, the newline-free middle and the literal tail
constrain the text). -/
def matchesPassword (s : Str) : Bool :=
  s.tails.any fun t =>
    match t with
    | c :: r => c == '@' && litAfterNoNL pwLit r
    | [] => false

/-- The classification outcomes of one `check_password` iteration. -/
inductive PromptClass
  | passphrase
  | password
  | noPrompt
deriving DecidableEq

/-- The if/elif/else classification in `check_password`: passphrase
checked first, then password, else no prompt. -/
def classifyPrompt (s : Str) : PromptClass :=
  if matchesPassphrase s then .passphrase
  else if matchesPassword s then .password
  else .noPrompt

/-- Declarative semantics of the passphrase regex. -/
def PassphraseSpec (s : Str) : Prop :=
  ∃ u v w, s = u ++ ppLit ++ v ++ [':'] ++ w ∧ '\n' ∉ v

/-- Declarative semantics of the password regex. -/
def PasswordSpec (s : Str) : Prop :=
  ∃ u b w, s = u ++ '@' :: (b ++ pwLit ++ w) ∧ '\n' ∉ b

theorem litAfterNoNL_iff {lit r : Str} :
    litAfterNoNL lit r = true ↔ ∃ b rest, r = b ++ lit ++ rest ∧ '\n' ∉ b := by
  induction r with
  | nil =>
    rw [litAfterNoNL, isPrefixOf_iff_append]
    constructor
    · rintro ⟨q, hq⟩
      rcases List.append_eq_nil.mp hq with ⟨h1, h2⟩
      exact ⟨[], [], by simp [h1], by simp⟩
    · rintro ⟨b, rest, hr, _⟩
      rcases List.append_eq_nil.mp hr.symm with ⟨h1, h2⟩
      rcases List.append_eq_nil.mp h1 with ⟨h3, h4⟩
      exact ⟨[], by simp [h4]⟩
  | cons c cs ih =>
    rw [litAfterNoNL, Bool.or_eq_true, Bool.and_eq_true, isPrefixOf_iff_append, ih]
    constructor
    · rintro (⟨q, hq⟩ | ⟨hc, b, rest, hr, hb⟩)
      · exact ⟨[], q, by simp [hq], by simp⟩
      · refine ⟨c :: b, rest, by simp [hr], ?_⟩
        intro hmem
        rcases List.mem_cons.mp hmem with h | h
        · exact absurd h.symm (by simpa using hc)
        · exact hb h
    · rintro ⟨b, rest, hr, hb⟩
      cases b with
      | nil =>
        left
        exact ⟨rest, by simpa using hr.symm⟩
      | cons d ds =>
        right
        have hcd : c = d := by
          have := congrArg (fun l => l.head?) hr
          simpa using this
        refine ⟨?_, ds, rest, ?_, fun h => hb (by simp [h])⟩
        · subst hcd
          simpa using fun h => hb (by simp [h])
        · have := congrArg (fun l => l.tail) hr
          simpa using this

theorem matchesPassphrase_iff {s : Str} :
    matchesPassphrase s = true ↔ PassphraseSpec s := by
  rw [matchesPassphrase, List.any_eq_true]
  constructor
  · rintro ⟨t, ht, hp⟩
    rw [List.mem_tails] at ht
    obtain ⟨u, rfl⟩ := ht
    rw [Bool.and_eq_true, isPrefixOf_iff_append] at hp
    obtain ⟨⟨r, hr⟩, hlit⟩ := hp
    rw [← hr, List.drop_left] at hlit
    obtain ⟨v, rest, rfl, hv⟩ := litAfterNoNL_iff.mp hlit
    exact ⟨u, v, rest, by rw [← hr]; simp [List.append_assoc], hv⟩
  · rintro ⟨u, v, w, rfl, hv⟩
    refine ⟨ppLit ++ (v ++ [':'] ++ w), ?_, ?_⟩
    · rw [List.mem_tails]
      exact ⟨u, by simp [List.append_assoc]⟩
    · rw [Bool.and_eq_true, isPrefixOf_iff_append]
      refine ⟨⟨v ++ [':'] ++ w, by simp [List.append_assoc]⟩, ?_⟩
      rw [List.drop_left]
      exact litAfterNoNL_iff.mpr ⟨v, w, by simp [List.append_assoc], hv⟩

theorem matchesPassword_iff {s : Str} :
    matchesPassword s = true ↔ PasswordSpec s := by
  rw [matchesPassword, List.any_eq_true]
  constructor
  · rintro ⟨t, ht, hp⟩
    rw [List.mem_tails] at ht
    obtain ⟨u, rfl⟩ := ht
    cases t with
    | nil => cases hp
    | cons c r =>
      rw [Bool.and_eq_true, beq_iff_eq] at hp
      obtain ⟨rfl, hlit⟩ := hp
      obtain ⟨b, rest, rfl, hb⟩ := litAfterNoNL_iff.mp hlit
      exact ⟨u, b, rest, rfl, hb⟩
  · rintro ⟨u, b, w, rfl, hb⟩
    refine ⟨'@' :: (b ++ pwLit ++ w), ?_, ?_⟩
    · rw [List.mem_tails]
      exact ⟨u, rfl⟩
    · rw [Bool.and_eq_true, beq_iff_eq]
      exact ⟨rfl, litAfterNoNL_iff.mpr ⟨b, w, rfl, hb⟩⟩

/-- C2 counterexample: a text matching BOTH the passphrase pattern and
the password pattern exists, so the claim that no text ever matches
both is false; the scanner classifies such a text as passphrase
(checked first). -/
theorem C2_counterexample :
    PassphraseSpec (str "user@host password: Enter passphrase for key:") ∧
    PasswordSpec (str "user@host password: Enter passphrase for key:") ∧
    classifyPrompt (str "user@host password: Enter passphrase for key:") =
      PromptClass.passphrase :=
  ⟨matchesPassphrase_iff.mp (by decide), matchesPassword_iff.mp (by decide), by decide⟩

/-- C2 (amended): for any text chunk the scanner produces exactly one
classification: passphrase exactly when the passphrase pattern matches,
password exactly when the password pattern matches and the passphrase
pattern does not (passphrase has priority), no prompt otherwise.  A
text may match both patterns, in which case passphrase wins. -/
theorem C2_prompt_classification (s : Str) :
    (classifyPrompt s = PromptClass.passphrase ↔ PassphraseSpec s) ∧
    (classifyPrompt s = PromptClass.password ↔ ¬ PassphraseSpec s ∧ PasswordSpec s) ∧
    (classifyPrompt s = PromptClass.noPrompt ↔ ¬ PassphraseSpec s ∧ ¬ PasswordSpec s) := by
  unfold classifyPrompt
  by_cases h1 : matchesPassphrase s = true
  · rw [if_pos h1]
    have hs1 := matchesPassphrase_iff.mp h1
    refine ⟨by simp [hs1], by simp [hs1], by simp [hs1]⟩
  · rw [if_neg h1]
    have hs1 : ¬ PassphraseSpec s := fun h => h1 (matchesPassphrase_iff.mpr h)
    by_cases h2 : matchesPassword s = true
    · rw [if_pos h2]
      have hs2 := matchesPassword_iff.mp h2
      refine ⟨by simp [hs1], by simp [hs1, hs2], by simp [hs2]⟩
    · rw [if_neg h2]
      have hs2 : ¬ PasswordSpec s := fun h => h2 (matchesPassword_iff.mpr h)
      refine ⟨by simp [hs1], by simp [hs1, hs2], by simp [hs1, hs2]⟩

/-! ## `get_uuid` (`kernel.py`)

`re.match(".*kernel-([0-9a-f]{8}-?[0-9a-f]{4}-?4[0-9a-f]{3}-?[89ab]"
"[0-9a-f]{3}-?[0-9a-f]{12}).json", filename)` — note the UNESCAPED dot
before `json` (matching any non-newline character) and the missing end
anchor.  The leading greedy `.*` (which cannot cross a newline) makes
the LATEST matching start win.  On a match, `uuid.UUID(group)`
canonicalises the captured group (strips dashes, reinserts them at
8-4-4-4-12); otherwise `uuid.uuid4()` supplies a fresh UUID, modelled
as an explicit `fresh` argument. -/

/-- The regex class `[0-9a-f]`. -/
def hexLower (c : Char) : Bool := c.isDigit || ('a' ≤ c && c ≤ 'f')

/-- Consume exactly `n` `[0-9a-f]` characters. -/
def takeHex : Nat → Str → Option (Str × Str)
  | 0, l => some ([], l)
  | _ + 1, [] => none
  | n + 1, c :: cs =>
      if hexLower c then (takeHex n cs).map fun p => (c :: p.1, p.2)
      else none

/-- Consume the optional dash `-?` (greedily, which is deterministic
here because `-` is not a hex character). -/
def optDash : Str → (Str × Str)
  | '-' :: cs => (['-'], cs)
  | l => ([], l)

/-- Parse the captured group
`[0-9a-f]{8}-?[0-9a-f]{4}-?4[0-9a-f]{3}-?[89ab][0-9a-f]{3}-?[0-9a-f]{12}`
at the head of the input, returning the group text and the rest. -/
def parseG (l : Str) : Option (Str × Str) := do
  let (a, r) ← takeHex 8 l
  let (d1, r) := optDash r
  let (b, r) ← takeHex 4 r
  let (d2, r) := optDash r
  let (c3, r) ← match r with
    | '4' :: rr => (takeHex 3 rr).map fun p => ('4' :: p.1, p.2)
    | _ => none
  let (d3, r) := optDash r
  let (c4, r) ← match r with
    | y :: rr =>
        if y == '8' || y == '9' || y == 'a' || y == 'b' then
          (takeHex 3 rr).map fun p => (y :: p.1, p.2)
        else none
    | [] => none
  let (d4, r) := optDash r
  let (e, r) ← takeHex 12 r
  return (a ++ d1 ++ b ++ d2 ++ c3 ++ d3 ++ c4 ++ d4 ++ e, r)

/-- Try the pattern `kernel-(G).json` at the current position: the
literal `kernel-`, the group, any single non-newline character (the
unescaped dot), then the literal `json`; trailing text is allowed. -/
def tryHere (l : Str) : Option Str :=
  if (str "kernel-").isPrefixOf l then
    match parseG (l.drop 7) with
    | some (g, rest) =>
        match rest with
        | c :: rest2 =>
            if c != '\n' && (str "json").isPrefixOf rest2 then some g else none
        | [] => none
    | none => none
  else none

/-- `re.match` with the leading greedy `.*`: scan for the LATEST start
position whose tail matches, never letting `.*` cross a newline. -/
def reScanUuid : Str → Option Str
  | [] => none
  | c :: cs =>
      match (if c = '\n' then none else reScanUuid cs) with
      | some g => some g
      | none => tryHere (c :: cs)

/-- `uuid.UUID(g)`: strip dashes and reinsert at 8-4-4-4-12. -/
def uuidCanon (g : Str) : Str :=
  let h := g.filter fun c => c != '-'
  h.take 8 ++ '-' :: ((h.drop 8).take 4 ++ '-' :: ((h.drop 12).take 4 ++
    '-' :: ((h.drop 16).take 4 ++ '-' :: (h.drop 20))))

/-- `get_uuid(filename)`, with the fresh `uuid.uuid4()` value passed as
an oracle argument. -/
def get_uuid (filename : Option Str) (fresh : Str) : Str :=
  match filename with
  | some f =>
      match reScanUuid f with
      | some g => uuidCanon g
      | none => fresh
  | none => fresh

theorem isPrefixOf_append (l r : Str) : l.isPrefixOf (l ++ r) = true :=
  isPrefixOf_iff_append.mpr ⟨r, rfl⟩

theorem hexLower_ne_dash {c : Char} (h : hexLower c = true) : (c != '-') = true := by
  rcases hc : c == '-' with _ | _
  · simp [bne, hc]
  · rw [beq_iff_eq] at hc
    rw [hc] at h
    cases h

theorem hexLower_ne_k {c : Char} (h : hexLower c = true) : c ≠ 'k' := by
  intro hc
  rw [hc] at h
  cases h

/-- A string with no `k` admits no match start anywhere (the pattern
starts with the literal `kernel-`). -/
theorem reScanUuid_none_of_no_k {l : Str} (h : ∀ x ∈ l, x ≠ 'k') :
    reScanUuid l = none := by
  induction l with
  | nil => rfl
  | cons c cs ih =>
    rw [reScanUuid]
    have h1 : (if c = '\n' then none else reScanUuid cs) = (none : Option Str) := by
      split
      · rfl
      · exact ih fun x hx => h x (by simp [hx])
    rw [h1]
    have hck : ('k' == c) = false := by
      have := h c (by simp)
      simp [beq_iff_eq]
      exact fun hh => this hh.symm
    simp [tryHere, List.isPrefixOf, str, hck]

/-- A newline-free prefix before a matching position does not change
the (greedy, latest-start) result. -/
theorem reScanUuid_prefix {p l : Str} (hp : '\n' ∉ p) {g : Str}
    (hl : reScanUuid l = some g) : reScanUuid (p ++ l) = some g := by
  induction p with
  | nil => simpa using hl
  | cons c cs ih =>
    have hc : c ≠ '\n' := fun h => hp (by simp [h])
    have hrest := ih fun h => hp (by simp [h])
    rw [List.cons_append, reScanUuid, if_neg hc, hrest]

theorem takeHex_exact {a : Str} {n : Nat} (hlen : a.length = n)
    (hhex : ∀ x ∈ a, hexLower x = true) (r : Str) :
    takeHex n (a ++ r) = some (a, r) := by
  induction a generalizing n with
  | nil =>
    subst hlen
    rfl
  | cons c cs ih =>
    subst hlen
    rw [List.cons_append, List.length_cons, takeHex,
      if_pos (hhex c (by simp)), ih rfl fun x hx => hhex x (by simp [hx])]
    rfl
theorem parseG_exact {a b c3 d3 e : Str} {y : Char}
    (ha : a.length = 8) (ha2 : ∀ x ∈ a, hexLower x = true)
    (hb : b.length = 4) (hb2 : ∀ x ∈ b, hexLower x = true)
    (hc3 : c3.length = 3) (hc32 : ∀ x ∈ c3, hexLower x = true)
    (hy : y = '8' ∨ y = '9' ∨ y = 'a' ∨ y = 'b')
    (hd3 : d3.length = 3) (hd32 : ∀ x ∈ d3, hexLower x = true)
    (he : e.length = 12) (he2 : ∀ x ∈ e, hexLower x = true)
    (rest : Str) :
    parseG ((a ++ '-' :: (b ++ '-' :: '4' :: (c3 ++ '-' :: y :: (d3 ++ '-' :: e)))) ++ rest) =
      some (a ++ '-' :: (b ++ '-' :: '4' :: (c3 ++ '-' :: y :: (d3 ++ '-' :: e))), rest) := by
  rcases hy with rfl | rfl | rfl | rfl <;>
    simp [parseG, List.append_assoc, List.cons_append, takeHex_exact ha ha2,
      takeHex_exact hb hb2, takeHex_exact hc3 hc32, takeHex_exact hd3 hd32,
      takeHex_exact he he2, optDash]
theorem filter_ne_dash_of_hex {l : Str} (h : ∀ x ∈ l, hexLower x = true) :
    (l.filter fun c => c != '-') = l :=
  List.filter_eq_self.mpr fun x hx => hexLower_ne_dash (h x hx)

theorem uuidCanon_dashed {a b c3 d3 e : Str} {y : Char}
    (ha : a.length = 8) (ha2 : ∀ x ∈ a, hexLower x = true)
    (hb : b.length = 4) (hb2 : ∀ x ∈ b, hexLower x = true)
    (hc3 : c3.length = 3) (hc32 : ∀ x ∈ c3, hexLower x = true)
    (hy : y = '8' ∨ y = '9' ∨ y = 'a' ∨ y = 'b')
    (hd3 : d3.length = 3) (hd32 : ∀ x ∈ d3, hexLower x = true)
    (he : e.length = 12) (he2 : ∀ x ∈ e, hexLower x = true) :
    uuidCanon (a ++ '-' :: (b ++ '-' :: '4' :: (c3 ++ '-' :: y :: (d3 ++ '-' :: e)))) =
      a ++ '-' :: (b ++ '-' :: '4' :: (c3 ++ '-' :: y :: (d3 ++ '-' :: e))) := by
  have hfilter :
      ((a ++ '-' :: (b ++ '-' :: '4' :: (c3 ++ '-' :: y :: (d3 ++ '-' :: e)))).filter
        fun c => c != '-') =
      a ++ (b ++ '4' :: (c3 ++ y :: (d3 ++ e))) := by
    rcases hy with rfl | rfl | rfl | rfl <;>
      simp [List.filter_append, List.filter_cons, filter_ne_dash_of_hex ha2,
        filter_ne_dash_of_hex hb2, filter_ne_dash_of_hex hc32,
        filter_ne_dash_of_hex hd32, filter_ne_dash_of_hex he2]
  rw [uuidCanon]
  simp only [hfilter]
  have h8 : (a ++ (b ++ '4' :: (c3 ++ y :: (d3 ++ e)))).take 8 = a := List.take_left' ha
  have hd8 : (a ++ (b ++ '4' :: (c3 ++ y :: (d3 ++ e)))).drop 8 =
      b ++ '4' :: (c3 ++ y :: (d3 ++ e)) := List.drop_left' ha
  have h4 : (b ++ '4' :: (c3 ++ y :: (d3 ++ e))).take 4 = b := List.take_left' hb
  have hd12 : (a ++ (b ++ '4' :: (c3 ++ y :: (d3 ++ e)))).drop 12 =
      '4' :: (c3 ++ y :: (d3 ++ e)) := by
    rw [show (12 : Nat) = 8 + 4 from rfl, ← List.drop_drop, hd8]
    exact List.drop_left' hb
  have hc4len : ('4' :: c3).length = 4 := by simp [hc3]
  have h44 : ('4' :: (c3 ++ y :: (d3 ++ e))).take 4 = '4' :: c3 := by
    rw [show ('4' :: (c3 ++ y :: (d3 ++ e))) = ('4' :: c3) ++ y :: (d3 ++ e) by simp]
    exact List.take_left' hc4len
  have hd16 : (a ++ (b ++ '4' :: (c3 ++ y :: (d3 ++ e)))).drop 16 =
      y :: (d3 ++ e) := by
    rw [show (16 : Nat) = 12 + 4 from rfl, ← List.drop_drop, hd12]
    rw [show ('4' :: (c3 ++ y :: (d3 ++ e))) = ('4' :: c3) ++ y :: (d3 ++ e) by simp]
    exact List.drop_left' hc4len
  have hy4len : (y :: d3).length = 4 := by simp [hd3]
  have h54 : (y :: (d3 ++ e)).take 4 = y :: d3 := by
    rw [show (y :: (d3 ++ e)) = (y :: d3) ++ e by simp]
    exact List.take_left' hy4len
  have hd20 : (a ++ (b ++ '4' :: (c3 ++ y :: (d3 ++ e)))).drop 20 = e := by
    rw [show (20 : Nat) = 16 + 4 from rfl, ← List.drop_drop, hd16]
    rw [show (y :: (d3 ++ e)) = (y :: d3) ++ e by simp]
    exact List.drop_left' hy4len
  rw [h8, hd8, h4, hd12, h44, hd16, h54, hd20]
  simp
/-- C10 counterexample: the dot in the pattern is unescaped, so a
filename with any character in place of `.` (here `X`) still yields
the embedded UUID, while the claim says every input not of the form
`kernel-<uuid>.json` gets a freshly generated UUID. -/
theorem C10_counterexample :
    get_uuid (some (str "kernel-aaaaaaaa-aaaa-4aaa-8aaa-aaaaaaaaaaaaXjson"))
        (str "ffffffff-ffff-4fff-8fff-ffffffffffff") =
      str "aaaaaaaa-aaaa-4aaa-8aaa-aaaaaaaaaaaa" ∧
    str "aaaaaaaa-aaaa-4aaa-8aaa-aaaaaaaaaaaa" ≠
      str "ffffffff-ffff-4fff-8fff-ffffffffffff" :=
  ⟨by decide, by decide⟩

/-- C10 (amended): `get_uuid` is total and never returns `None`; for
any filename consisting of a newline-free prefix, `kernel-`, a dashed
version-4 UUID, ANY single non-newline character (the unescaped regex
dot), the literal `json` and arbitrary trailing text (free of `k` so
the greedy scan locks onto this occurrence), it returns exactly the
embedded UUID; for `None` or any non-matching input it returns the
fresh UUID. -/
theorem C10_get_uuid (p a b c3 d3 e s fresh : Str) (y c : Char)
    (hp : '\n' ∉ p)
    (ha : a.length = 8) (ha2 : ∀ x ∈ a, hexLower x = true)
    (hb : b.length = 4) (hb2 : ∀ x ∈ b, hexLower x = true)
    (hc3 : c3.length = 3) (hc32 : ∀ x ∈ c3, hexLower x = true)
    (hy : y = '8' ∨ y = '9' ∨ y = 'a' ∨ y = 'b')
    (hd3 : d3.length = 3) (hd32 : ∀ x ∈ d3, hexLower x = true)
    (he : e.length = 12) (he2 : ∀ x ∈ e, hexLower x = true)
    (hc : c ≠ '\n') (hck : c ≠ 'k') (hs : ∀ x ∈ s, x ≠ 'k') :
    get_uuid (some (p ++ (str "kernel-" ++
        ((a ++ '-' :: (b ++ '-' :: '4' :: (c3 ++ '-' :: y :: (d3 ++ '-' :: e)))) ++
          c :: (str "json" ++ s))))) fresh =
      a ++ '-' :: (b ++ '-' :: '4' :: (c3 ++ '-' :: y :: (d3 ++ '-' :: e))) ∧
    get_uuid none fresh = fresh ∧
    (∀ f, reScanUuid f = none → get_uuid (some f) fresh = fresh) := by
  refine ⟨?_, rfl, fun f hf => by rw [get_uuid, hf]⟩
  have hyhex : hexLower y = true := by rcases hy with rfl | rfl | rfl | rfl <;> rfl
  have htail : ∀ x ∈ str "ernel-" ++
      ((a ++ '-' :: (b ++ '-' :: '4' :: (c3 ++ '-' :: y :: (d3 ++ '-' :: e)))) ++
        c :: (str "json" ++ s)), x ≠ 'k' := by
    simp only [List.forall_mem_append, List.forall_mem_cons]
    exact ⟨by decide, ⟨⟨fun x hx => hexLower_ne_k (ha2 x hx), by decide,
      fun x hx => hexLower_ne_k (hb2 x hx), by decide, by decide,
      fun x hx => hexLower_ne_k (hc32 x hx), by decide, hexLower_ne_k hyhex,
      fun x hx => hexLower_ne_k (hd32 x hx), by decide,
      fun x hx => hexLower_ne_k (he2 x hx)⟩, hck, by decide, hs⟩⟩
  have hsplit : str "kernel-" ++
      ((a ++ '-' :: (b ++ '-' :: '4' :: (c3 ++ '-' :: y :: (d3 ++ '-' :: e)))) ++
        c :: (str "json" ++ s)) =
      'k' :: (str "ernel-" ++
        ((a ++ '-' :: (b ++ '-' :: '4' :: (c3 ++ '-' :: y :: (d3 ++ '-' :: e)))) ++
          c :: (str "json" ++ s))) := rfl
  have h1 : reScanUuid (str "kernel-" ++
      ((a ++ '-' :: (b ++ '-' :: '4' :: (c3 ++ '-' :: y :: (d3 ++ '-' :: e)))) ++
        c :: (str "json" ++ s))) =
      some (a ++ '-' :: (b ++ '-' :: '4' :: (c3 ++ '-' :: y :: (d3 ++ '-' :: e)))) := by
    rw [hsplit, reScanUuid, if_neg (by decide : ¬('k' = '\n')),
      reScanUuid_none_of_no_k htail]
    rw [← hsplit, tryHere, if_pos (isPrefixOf_append _ _), List.drop_left' (by decide),
      parseG_exact ha ha2 hb hb2 hc3 hc32 hy hd3 hd32 he he2]
    have hcne : (c != '\n') = true := by simp [bne_iff_ne, hc]
    simp [hcne, isPrefixOf_append]
  rw [get_uuid, reScanUuid_prefix hp h1]
  exact uuidCanon_dashed ha ha2 hb hb2 hc3 hc32 hy hd3 hd32 he he2

/-- Witness for C10 at a concrete input: the canonical dashed v4 UUID
filename `kernel-aaaaaaaa-aaaa-4aaa-8aaa-aaaaaaaaaaaa.json`. -/
theorem C10_get_uuid_witness :
    get_uuid (some (([] : Str) ++ (str "kernel-" ++
        ((str "aaaaaaaa" ++ '-' :: (str "aaaa" ++ '-' :: '4' ::
          (str "aaa" ++ '-' :: '8' :: (str "aaa" ++ '-' :: str "aaaaaaaaaaaa")))) ++
          '.' :: (str "json" ++ ([] : Str))))))
        (str "ffffffff-ffff-4fff-8fff-ffffffffffff") =
      str "aaaaaaaa" ++ '-' :: (str "aaaa" ++ '-' :: '4' ::
        (str "aaa" ++ '-' :: '8' :: (str "aaa" ++ '-' :: str "aaaaaaaaaaaa"))) ∧
    get_uuid none (str "ffffffff-ffff-4fff-8fff-ffffffffffff") =
      str "ffffffff-ffff-4fff-8fff-ffffffffffff" ∧
    (∀ f, reScanUuid f = none →
      get_uuid (some f) (str "ffffffff-ffff-4fff-8fff-ffffffffffff") =
        str "ffffffff-ffff-4fff-8fff-ffffffffffff") :=
  C10_get_uuid [] (str "aaaaaaaa") (str "aaaa") (str "aaa") (str "aaa")
    (str "aaaaaaaaaaaa") [] (str "ffffffff-ffff-4fff-8fff-ffffffffffff") '8' '.'
    (by decide) (by decide) (by decide) (by decide) (by decide) (by decide)
    (by decide) (Or.inl rfl) (by decide) (by decide) (by decide) (by decide)
    (by decide) (by decide) (by decide)

/-! ## SessionSupervisor (`keep_alive` in `kernel.py`)

The loop body per tick: check `self.connection.isalive()` (break and
log when dead), run `check_tunnels` (respawning a dead tunnel), then
`readlines()` inside `try/except`, where `pexpect.TIMEOUT` is ignored
and `KeyboardInterrupt` triggers a Ctrl-C send.  The `try` block
covers ONLY the `readlines()` call: a `KeyboardInterrupt` delivered
during the liveness check or the tunnel check propagates and kills the
loop.  Each tick of the model carries the world inputs: where an
interrupt (if any) arrives, session liveness, tunnel liveness,
credential resolution for a tunnel respawn and the read outcome. -/

/-- Outcome of the `readlines()` call of one tick. -/
inductive ReadOutcome
  | dataRead
  | timeoutRead
  | kbint
deriving DecidableEq

/-- World inputs for one tick of the keep-alive loop. -/
structure Tick where
  intAtAliveCheck : Bool
  alive : Bool
  intAtTunnelCheck : Bool
  tunnelAlive : Bool
  credsOk : Bool
  read : ReadOutcome

/-- Observable events of the supervisor. -/
inductive SupEvt
  | kernelDied
  | tunnelRespawn
  | interruptSent
deriving DecidableEq

/-- How a run of the supervisor ended. -/
inductive SupOutcome
  | stillRunning
  | died
  | crashed
deriving DecidableEq

/-- The keep-alive loop over a finite trace of tick inputs. -/
def keep_alive : List Tick → List SupEvt × SupOutcome
  | [] => ([], .stillRunning)
  | t :: rest =>
      if t.intAtAliveCheck then ([], .crashed)
      else if !t.alive then ([SupEvt.kernelDied], .died)
      else if t.intAtTunnelCheck then ([], .crashed)
      else
        let evts1 : List SupEvt :=
          if t.tunnelAlive then [] else [SupEvt.tunnelRespawn]
        if !t.tunnelAlive && !t.credsOk then (evts1, .crashed)
        else
          match t.read with
          | .dataRead =>
              let r := keep_alive rest
              (evts1 ++ r.1, r.2)
          | .timeoutRead =>
              let r := keep_alive rest
              (evts1 ++ r.1, r.2)
          | .kbint =>
              let r := keep_alive rest
              (evts1 ++ SupEvt.interruptSent :: r.1, r.2)

/-- `kernelDied` events only ever close the event list. -/
theorem keep_alive_died_last (ticks : List Tick) :
    SupEvt.kernelDied ∉ (keep_alive ticks).1 ∨
      ∃ pre, (keep_alive ticks).1 = pre ++ [SupEvt.kernelDied] ∧
        SupEvt.kernelDied ∉ pre := by
  induction ticks with
  | nil => left; simp [keep_alive]
  | cons t rest ih =>
    rw [keep_alive]
    by_cases h1 : t.intAtAliveCheck
    · left; simp [h1]
    · rw [if_neg h1]
      by_cases h2 : !t.alive
      · right
        rw [if_pos h2]
        exact ⟨[], by simp⟩
      · rw [if_neg h2]
        by_cases h3 : t.intAtTunnelCheck
        · left; simp [h3]
        · rw [if_neg h3]
          have hev : SupEvt.kernelDied ∉
              (if t.tunnelAlive then ([] : List SupEvt) else [SupEvt.tunnelRespawn]) := by
            split <;> simp
          by_cases h4 : !t.tunnelAlive && !t.credsOk
          · left
            rw [if_pos h4]
            simpa using hev
          · rw [if_neg h4]
            rcases ih with ih | ⟨pre, hpre, hnd⟩ <;> cases hr : t.read
            · left
              simp only [hr]
              simp only [List.mem_append]
              rintro (h | h)
              · exact hev h
              · exact ih h
            · left
              simp only [hr, List.mem_append]
              rintro (h | h)
              · exact hev h
              · exact ih h
            · left
              simp only [hr, List.mem_append, List.mem_cons]
              rintro (h | h | h)
              · exact hev h
              · cases h
              · exact ih h
            · right
              refine ⟨(if t.tunnelAlive then ([] : List SupEvt)
                  else [SupEvt.tunnelRespawn]) ++ pre, ?_, ?_⟩
              · simp only [hr, hpre, List.append_assoc]
              · simp only [List.mem_append]
                rintro (h | h)
                · exact hev h
                · exact hnd h
            · right
              refine ⟨(if t.tunnelAlive then ([] : List SupEvt)
                  else [SupEvt.tunnelRespawn]) ++ pre, ?_, ?_⟩
              · simp only [hr, hpre, List.append_assoc]
              · simp only [List.mem_append]
                rintro (h | h)
                · exact hev h
                · exact hnd h
            · right
              refine ⟨(if t.tunnelAlive then ([] : List SupEvt)
                  else [SupEvt.tunnelRespawn]) ++ SupEvt.interruptSent :: pre, ?_, ?_⟩
              · simp only [hr, hpre, List.append_assoc, List.cons_append]
              · simp only [List.mem_append, List.mem_cons]
                rintro (h | h | h)
                · exact hev h
                · cases h
                · exact hnd h

/-- C4: once the supervisor loop has observed that the remote session
process is no longer alive (`kernelDied`, the RemoteExited state) it
never afterwards delivers an interrupt to the remote session — in
fact the loop breaks immediately, so nothing at all follows. -/
theorem C4_no_interrupt_after_exit (ticks : List Tick) (pre post : List SupEvt)
    (h : (keep_alive ticks).1 = pre ++ SupEvt.kernelDied :: post) :
    SupEvt.interruptSent ∉ post := by
  rcases keep_alive_died_last ticks with hno | ⟨q, hq, hnd⟩
  · exact absurd (by rw [h]; simp) hno
  · rw [h] at hq
    rcases List.append_eq_append_iff.mp hq with ⟨w, hw, hba⟩ | ⟨w, hw, hba⟩
    · cases w with
      | nil =>
        have : post = [] := by simpa using congrArg List.tail hba
        simp [this]
      | cons c cs =>
        have hc : c = SupEvt.kernelDied := by
          have hh := congrArg List.head? hba
          simp at hh
          exact hh.symm
        exact absurd (by rw [hw, hc]; simp : SupEvt.kernelDied ∈ q) hnd
    · have hlen := congrArg List.length hba
      simp at hlen
      have hpost : post = [] := List.eq_nil_of_length_eq_zero (by omega)
      simp [hpost]

/-- Witness for C4: a trace with one forwarded interrupt and then a
dead session; nothing follows the `kernelDied` event. -/
theorem C4_no_interrupt_after_exit_witness :
    SupEvt.interruptSent ∉ ([] : List SupEvt) :=
  C4_no_interrupt_after_exit
    [⟨false, true, false, true, true, ReadOutcome.kbint⟩,
     ⟨false, false, false, true, true, ReadOutcome.dataRead⟩]
    [SupEvt.interruptSent] [] (by decide)

/-- C5 counterexample: a KeyboardInterrupt arriving during the tunnel
check (outside the `try` that guards only `readlines()`) terminates
the supervisor without any forwarded Ctrl-C, while the session is
still alive and no external stop was requested. -/
theorem C5_counterexample :
    keep_alive [⟨false, true, true, true, true, ReadOutcome.dataRead⟩] =
      ([], SupOutcome.crashed) := by decide

/-- C5 (amended): when interrupts only ever arrive during the guarded
`readlines()` call (and tunnel respawns can authenticate), a
KeyboardInterrupt is forwarded as Ctrl-C instead of terminating the
loop, the loop never crashes, and it terminates exactly when the
remote session process is observed dead; every interrupt observed
before that point yields exactly one forwarded Ctrl-C. -/
theorem C5_interrupt_forwarding (ticks : List Tick)
    (h : ∀ t ∈ ticks, t.intAtAliveCheck = false ∧ t.intAtTunnelCheck = false ∧
      t.credsOk = true) :
    (keep_alive ticks).2 ≠ SupOutcome.crashed ∧
    ((keep_alive ticks).2 = SupOutcome.died ↔ ∃ t ∈ ticks, t.alive = false) ∧
    (keep_alive ticks).1.count SupEvt.interruptSent =
      ((ticks.takeWhile fun t => t.alive).filter
        fun t => t.read == ReadOutcome.kbint).length := by
  induction ticks with
  | nil =>
    refine ⟨by simp [keep_alive], by simp [keep_alive], by simp [keep_alive]⟩
  | cons t rest ih =>
    obtain ⟨h1, h3, h5⟩ := h t (by simp)
    have ihr := ih fun x hx => h x (by simp [hx])
    rw [keep_alive, if_neg (by simp [h1])]
    by_cases h2 : t.alive = true
    · rw [if_neg (by simp [h2]), if_neg (by simp [h3])]
      have h45 : (!t.tunnelAlive && !t.credsOk) = false := by simp [h5]
      rw [if_neg (by simp [h45] : ¬ (!t.tunnelAlive && !t.credsOk) = true)]
      have hev1 : (if t.tunnelAlive then ([] : List SupEvt)
          else [SupEvt.tunnelRespawn]).count SupEvt.interruptSent = 0 := by
        split <;> decide
      have htw : (t :: rest).takeWhile (fun t => t.alive) =
          t :: rest.takeWhile (fun t => t.alive) := by
        rw [List.takeWhile_cons, if_pos h2]
      cases hr : t.read
      · refine ⟨ihr.1, ?_, ?_⟩
        · constructor
          · intro hd
            obtain ⟨x, hx, hxa⟩ := ihr.2.1.mp hd
            exact ⟨x, by simp [hx], hxa⟩
          · rintro ⟨x, hx, hxa⟩
            rcases List.mem_cons.mp hx with rfl | hx
            · exact absurd h2 (by simp [hxa])
            · exact ihr.2.1.mpr ⟨x, hx, hxa⟩
        · rw [List.count_append, hev1, htw, List.filter_cons]
          simp only [hr]
          rw [if_neg (by decide)]
          simpa using ihr.2.2
      · refine ⟨ihr.1, ?_, ?_⟩
        · constructor
          · intro hd
            obtain ⟨x, hx, hxa⟩ := ihr.2.1.mp hd
            exact ⟨x, by simp [hx], hxa⟩
          · rintro ⟨x, hx, hxa⟩
            rcases List.mem_cons.mp hx with rfl | hx
            · exact absurd h2 (by simp [hxa])
            · exact ihr.2.1.mpr ⟨x, hx, hxa⟩
        · rw [List.count_append, hev1, htw, List.filter_cons]
          simp only [hr]
          rw [if_neg (by decide)]
          simpa using ihr.2.2
      · refine ⟨ihr.1, ?_, ?_⟩
        · constructor
          · intro hd
            obtain ⟨x, hx, hxa⟩ := ihr.2.1.mp hd
            exact ⟨x, by simp [hx], hxa⟩
          · rintro ⟨x, hx, hxa⟩
            rcases List.mem_cons.mp hx with rfl | hx
            · exact absurd h2 (by simp [hxa])
            · exact ihr.2.1.mpr ⟨x, hx, hxa⟩
        · rw [List.count_append, hev1, htw, List.filter_cons]
          simp only [hr]
          rw [if_pos (by decide), List.count_cons]
          simp [ihr.2.2]
    · have h2f : t.alive = false := by revert h2; cases t.alive <;> simp
      rw [if_pos (by simp [h2f])]
      refine ⟨by decide, ?_, ?_⟩
      · simp only [true_iff, show SupOutcome.died = SupOutcome.died ↔ True by simp]
        exact ⟨t, by simp, h2f⟩
      · rw [List.takeWhile_cons, if_neg (by simp [h2f])]
        decide

/-- Witness for C5: two live ticks, an interrupt in the first, a dead
session in the third. -/
theorem C5_interrupt_forwarding_witness :
    (keep_alive [⟨false, true, false, true, true, ReadOutcome.kbint⟩,
        ⟨false, true, false, true, true, ReadOutcome.timeoutRead⟩,
        ⟨false, false, false, true, true, ReadOutcome.dataRead⟩]).2 ≠
      SupOutcome.crashed ∧
    ((keep_alive [⟨false, true, false, true, true, ReadOutcome.kbint⟩,
        ⟨false, true, false, true, true, ReadOutcome.timeoutRead⟩,
        ⟨false, false, false, true, true, ReadOutcome.dataRead⟩]).2 =
      SupOutcome.died ↔
      ∃ t ∈ [Tick.mk false true false true true ReadOutcome.kbint,
        Tick.mk false true false true true ReadOutcome.timeoutRead,
        Tick.mk false false false true true ReadOutcome.dataRead], t.alive = false) ∧
    (keep_alive [⟨false, true, false, true, true, ReadOutcome.kbint⟩,
        ⟨false, true, false, true, true, ReadOutcome.timeoutRead⟩,
        ⟨false, false, false, true, true, ReadOutcome.dataRead⟩]).1.count
      SupEvt.interruptSent =
      (([Tick.mk false true false true true ReadOutcome.kbint,
        Tick.mk false true false true true ReadOutcome.timeoutRead,
        Tick.mk false false false true true ReadOutcome.dataRead].takeWhile
          fun t => t.alive).filter fun t => t.read == ReadOutcome.kbint).length :=
  C5_interrupt_forwarding
    [⟨false, true, false, true, true, ReadOutcome.kbint⟩,
     ⟨false, true, false, true, true, ReadOutcome.timeoutRead⟩,
     ⟨false, false, false, true, true, ReadOutcome.dataRead⟩]
    (by decide)

/-! ## TunnelHop / TunnelSet (`tunnel_cmd`, `tunnel_connection`,
`check_tunnels` in `kernel.py`)

`tunnel_cmd` builds ONE ssh command with a `-L` forward per port name
and `sleep 600` as the idle remote command; `tunnel_connection` first
spawns a throwaway ssh to pre-accept the host key, then spawns the
single tunnel process, answers its credential prompts, and stores it
under the `tunnel` key of the tunnels dict.  `check_tunnels` respawns only when
the stored tunnel process is dead.  The formatted command (template
plus `.format(**connection_info)`) is modelled in one step with the
port mapping `ci`; credential resolution is the `credsOk` input. -/

/-- `PORT_NAMES` from `kernel.py`. -/
def PORT_NAMES : List Str :=
  [str "hb_port", str "shell_port", str "iopub_port", str "stdin_port",
   str "control_port"]

/-- One `-L` forward: local `127.0.0.1:{port}` to remote
`127.0.0.1:{port}` — the same port number on both sides. -/
def fwdSpec (ci : Str → Nat) (pn : Str) : Str :=
  str "-L 127.0.0.1:" ++ natStr (ci pn) ++ str ":127.0.0.1:" ++ natStr (ci pn)

/-- The `ports_str` of `tunnel_cmd` after `.format(**connection_info)`. -/
def ports_str_fmt (ci : Str → Nat) : Str :=
  pyJoin (str " ") (PORT_NAMES.map fun pn => fwdSpec ci pn)

/-- The `-J` jump chain (`if self.tunnel_hosts:` truthiness). -/
def jumps_str (tunnel_hosts : Option (List Str)) : Str :=
  match tunnel_hosts with
  | some hosts => if hosts.isEmpty then [] else str "-J " ++ pyJoin (str ",") hosts
  | none => []

/-- `tunnel_cmd` after formatting; `none` models the `ValueError` from
unpacking `host.split(":")` when the host has more than one colon. -/
def tunnel_cmd_fmt (tunnel_hosts : Option (List Str)) (host : Str)
    (ci : Str → Nat) : Option Str :=
  let ports_str := ports_str_fmt ci
  let jumps := jumps_str tunnel_hosts
  if host.contains ':' then
    match List.splitOn ':' host with
    | [h, hp] =>
        some (str "ssh -o StrictHostKeyChecking=no -p " ++ hp ++ str " " ++
          jumps ++ str " -S none " ++ ports_str ++ str " " ++ h ++ str " sleep 600")
    | _ => none
  else
    some (str "ssh -o StrictHostKeyChecking=no" ++ str " " ++ jumps ++
      str " -S none " ++ ports_str ++ str " " ++ host ++ str " sleep 600")

/-- A spawned operating-system process, by its liveness snapshot. -/
structure Proc where
  alive : Bool
deriving DecidableEq

/-- Python exceptions relevant to the orchestrator model. -/
inductive PyErr
  | valueError
  | credentialUnavailable
  | keyError
  | assertionError
  | typeError
  | expectTimeout
  | configurationError
deriving DecidableEq

/-- Observable tunnel events. -/
inductive TunEvt
  | spawnHostkeyPrime
  | spawnForwardTunnel (cmd : Str)
deriving DecidableEq

/-- `tunnel_connection`: spawn the host-key priming ssh, spawn the one
forwarding tunnel, resolve credentials (a failure raises before the
tunnel is stored), store the live tunnel process. -/
def tunnel_connection_t (tunnel_hosts : Option (List Str)) (host : Str)
    (ci : Str → Nat) (credsOk : Bool) : Except PyErr (Proc × List TunEvt) :=
  match tunnel_cmd_fmt tunnel_hosts host ci with
  | none => .error .valueError
  | some cmd =>
      if credsOk then
        .ok (⟨true⟩, [TunEvt.spawnHostkeyPrime, TunEvt.spawnForwardTunnel cmd])
      else .error .credentialUnavailable

/-- `check_tunnels`: restart the tunnel only when its process died. -/
def check_tunnels_t (tunnel_hosts : Option (List Str)) (host : Str)
    (ci : Str → Nat) (credsOk : Bool) (stored : Proc) :
    Except PyErr (Proc × List TunEvt) :=
  if stored.alive then .ok (stored, [])
  else tunnel_connection_t tunnel_hosts host ci credsOk

/-- C3: when the stored tunnel process is alive the health check is
idempotent — no new process is spawned and the stored tunnel is
unchanged; when it is dead and credentials resolve, the check always
results in a live tunnel being stored. -/
theorem C3_tunnel_health (tunnel_hosts : Option (List Str)) (host : Str)
    (ci : Str → Nat) (credsOk : Bool) (stored : Proc)
    (hwf : (tunnel_cmd_fmt tunnel_hosts host ci).isSome = true) :
    (stored.alive = true →
      check_tunnels_t tunnel_hosts host ci credsOk stored = .ok (stored, [])) ∧
    (stored.alive = false → credsOk = true →
      ∃ evts, check_tunnels_t tunnel_hosts host ci credsOk stored =
        .ok (⟨true⟩, evts) ∧ (⟨true⟩ : Proc).alive = true) := by
  constructor
  · intro ha
    rw [check_tunnels_t, if_pos ha]
  · intro ha hcr
    rw [check_tunnels_t, if_neg (by simp [ha])]
    rcases hcmd : tunnel_cmd_fmt tunnel_hosts host ci with _ | cmd
    · rw [hcmd] at hwf
      cases hwf
    · refine ⟨[TunEvt.spawnHostkeyPrime, TunEvt.spawnForwardTunnel cmd], ?_, rfl⟩
      simp only [tunnel_connection_t, hcmd]
      rw [if_pos hcr]

/-- Witness for C3 at a concrete input (both conjuncts exercised via
an alive store; hypotheses discharged by evaluation). -/
theorem C3_tunnel_health_witness :
    ((⟨true⟩ : Proc).alive = true →
      check_tunnels_t none (str "node1") (fun _ => 9000) true ⟨true⟩ =
        .ok (⟨true⟩, [])) ∧
    ((⟨true⟩ : Proc).alive = false → true = true →
      ∃ evts, check_tunnels_t none (str "node1") (fun _ => 9000) true ⟨true⟩ =
        .ok (⟨true⟩, evts) ∧ (⟨true⟩ : Proc).alive = true) :=
  C3_tunnel_health none (str "node1") (fun _ => 9000) true ⟨true⟩ (by decide)

theorem occurs_pyJoin_head {x : Str} (sep : Str) (xs : List Str) :
    occurs x (pyJoin sep (x :: xs)) := by
  cases xs with
  | nil => exact ⟨[], [], by simp [pyJoin]⟩
  | cons y ys => exact ⟨[], sep ++ pyJoin sep (y :: ys), by simp [pyJoin, List.append_assoc]⟩

theorem occurs_pyJoin_tail {p : Str} (sep x : Str) {xs : List Str}
    (hne : xs ≠ []) (h : occurs p (pyJoin sep xs)) :
    occurs p (pyJoin sep (x :: xs)) := by
  cases xs with
  | nil => exact absurd rfl hne
  | cons y ys =>
    have : pyJoin sep (x :: y :: ys) = (x ++ sep) ++ pyJoin sep (y :: ys) := by
      simp [pyJoin, List.append_assoc]
    rw [this]
    exact occurs_append_right _ h

theorem ports_str_occurs (ci : Str → Nat) {pn : Str} (hpn : pn ∈ PORT_NAMES) :
    occurs (fwdSpec ci pn) (ports_str_fmt ci) := by
  rw [ports_str_fmt, PORT_NAMES]
  simp only [PORT_NAMES, List.mem_cons, List.not_mem_nil, or_false] at hpn
  simp only [List.map_cons, List.map_nil]
  rcases hpn with rfl | rfl | rfl | rfl | rfl
  · exact occurs_pyJoin_head _ _
  · exact occurs_pyJoin_tail _ _ (by simp) (occurs_pyJoin_head _ _)
  · exact occurs_pyJoin_tail _ _ (by simp)
      (occurs_pyJoin_tail _ _ (by simp) (occurs_pyJoin_head _ _))
  · exact occurs_pyJoin_tail _ _ (by simp)
      (occurs_pyJoin_tail _ _ (by simp)
        (occurs_pyJoin_tail _ _ (by simp) (occurs_pyJoin_head _ _)))
  · exact occurs_pyJoin_tail _ _ (by simp)
      (occurs_pyJoin_tail _ _ (by simp)
        (occurs_pyJoin_tail _ _ (by simp)
          (occurs_pyJoin_tail _ _ (by simp) (occurs_pyJoin_head _ _))))

/-- C7: every forwarding tunnel the orchestrator creates carries all
five fixed ports in one single ssh command, each local `127.0.0.1`
port forwarded to the identical port on the remote loopback; and
`tunnel_connection` spawns exactly one forwarding tunnel process (plus
the non-forwarding host-key priming connection), storing it as the
single `tunnel` entry. -/
theorem C7_single_tunnel_all_ports (tunnel_hosts : Option (List Str)) (host : Str)
    (ci : Str → Nat) (cmd : Str)
    (hcmd : tunnel_cmd_fmt tunnel_hosts host ci = some cmd) :
    (∀ pn ∈ PORT_NAMES, occurs (fwdSpec ci pn) cmd) ∧
    (∀ credsOk proc evts,
      tunnel_connection_t tunnel_hosts host ci credsOk = .ok (proc, evts) →
      evts = [TunEvt.spawnHostkeyPrime, TunEvt.spawnForwardTunnel cmd] ∧
      (evts.countP fun e => match e with
        | TunEvt.spawnForwardTunnel _ => true
        | _ => false) = 1) := by
  constructor
  · intro pn hpn
    have hports := ports_str_occurs ci hpn
    rw [tunnel_cmd_fmt] at hcmd
    obtain ⟨u, v, hpeq⟩ := hports
    by_cases hcol : host.contains ':'
    · rw [if_pos hcol] at hcmd
      rcases hsp : List.splitOn ':' host with _ | ⟨h1, _ | ⟨h2, _ | ⟨h3, hr3⟩⟩⟩ <;>
          rw [hsp] at hcmd
      · cases hcmd
      · cases hcmd
      · injection hcmd with hcmd
        subst hcmd
        rw [hpeq]
        exact ⟨str "ssh -o StrictHostKeyChecking=no -p " ++ h2 ++ str " " ++
            jumps_str tunnel_hosts ++ str " -S none " ++ u,
          v ++ (str " " ++ h1 ++ str " sleep 600"), by simp [List.append_assoc]⟩
      · cases hcmd
    · rw [if_neg hcol] at hcmd
      injection hcmd with hcmd
      subst hcmd
      rw [hpeq]
      exact ⟨str "ssh -o StrictHostKeyChecking=no" ++ str " " ++
          jumps_str tunnel_hosts ++ str " -S none " ++ u,
        v ++ (str " " ++ host ++ str " sleep 600"), by simp [List.append_assoc]⟩
  · intro credsOk proc evts hconn
    simp only [tunnel_connection_t, hcmd] at hconn
    cases credsOk with
    | false =>
        rw [if_neg (by simp)] at hconn
        cases hconn
    | true =>
        rw [if_pos rfl] at hconn
        injection hconn with hconn
        injection hconn with h1 h2
        subst h2
        exact ⟨rfl, by simp [List.countP, List.countP.go]⟩

/-- Witness for C7 at a concrete input: no jump hosts, host `node1`,
all ports mapped to 9000. -/
theorem C7_single_tunnel_all_ports_witness :
    (∀ pn ∈ PORT_NAMES,
      occurs (fwdSpec (fun _ => 9000) pn)
        (str "ssh -o StrictHostKeyChecking=no" ++ str " " ++ ([] : Str) ++
          str " -S none " ++ ports_str_fmt (fun _ => 9000) ++ str " " ++
          str "node1" ++ str " sleep 600")) ∧
    (∀ credsOk proc evts,
      tunnel_connection_t none (str "node1") (fun _ => 9000) credsOk =
        .ok (proc, evts) →
      evts = [TunEvt.spawnHostkeyPrime, TunEvt.spawnForwardTunnel
        (str "ssh -o StrictHostKeyChecking=no" ++ str " " ++ ([] : Str) ++
          str " -S none " ++ ports_str_fmt (fun _ => 9000) ++ str " " ++
          str "node1" ++ str " sleep 600")] ∧
      (evts.countP fun e => match e with
        | TunEvt.spawnForwardTunnel _ => true
        | _ => false) = 1) :=
  C7_single_tunnel_all_ports none (str "node1") (fun _ => 9000) _ rfl

/-! ## Launch flow (`RemoteIKernel.__init__` dispatch and the launch
methods)

The observable effects of `__init__` from the interface dispatch on:
which processes get spawned (and in what order), which lines are sent
into the session, whether an exception is raised (and which), the
final `tunnel` flag and the stored tunnels.  World inputs: whether the
`ncat` bridge stays up (`assert` in `launch_ssh`), whether credential
prompts resolve (`check_password` / `get_password`, whose secret
`sendline` answers are not recorded as events), and whether the
scheduler `expect` succeeds, yielding `node`.  `PyErr.configurationError`
exists only to state claim C6: no code path ever raises it. -/

/-- Observable events of the launch flow. -/
inductive IEvt
  | popen (argv : List Str)
  | spawn (cmd : Str)
  | sendline (cmd : Str)
  | tunnelPrime
  | tunnelSpawn (cmd : Str)
deriving DecidableEq

/-- Observable result of `__init__`. -/
structure InitResult where
  err : Option PyErr
  events : List IEvt
  conn : Bool
  tunnel : Bool
  tunnels : List Str
  host : Option Str
deriving DecidableEq

/-- `_spawn`: spawn a pexpect session the first time, afterwards send
the command as a line into the existing session. -/
def spawn_m (conn : Bool) (cmd : Str) : Bool × IEvt :=
  if conn then (true, .sendline cmd) else (true, .spawn cmd)

/-- The `tunnel_hosts_cmd` property: `None` when there are no tunnel
hosts, else the ssh jump chain; `ValueError` when the final host has
more than one colon. -/
def tunnel_hosts_cmd_m (tunnel_hosts : Option (List Str)) :
    Except PyErr (Option Str) :=
  match tunnel_hosts with
  | none => .ok none
  | some hosts =>
      if hosts.isEmpty then .ok none
      else
        let jumps0 := pyJoin (str ",") hosts.dropLast
        let jumps := if jumps0.isEmpty then jumps0 else str "-J " ++ jumps0
        let host := hosts.getLastD []
        if host.contains ':' then
          match List.splitOn ':' host with
          | [h, p] => .ok (some (str "ssh -o StrictHostKeyChecking=no " ++ jumps ++
              str " -p " ++ p ++ str " " ++ h))
          | _ => .error .valueError
        else .ok (some (str "ssh -o StrictHostKeyChecking=no " ++ jumps ++ str " " ++ host))

/-- `launch_tunnel_hosts` as run by `__init__` when `tunnel_hosts` is
not `None` (events, connection flag, error). -/
def phase_tunnel_hosts (tunnel_hosts : Option (List Str)) (credsOk : Bool) :
    List IEvt × Bool × Option PyErr :=
  match tunnel_hosts with
  | none => ([], false, none)
  | some hosts =>
      match tunnel_hosts_cmd_m (some hosts) with
      | .error e => ([], false, some e)
      | .ok none => ([], false, some .typeError)
      | .ok (some cmd) =>
          if credsOk then ([.spawn cmd], true, none)
          else ([.spawn cmd], true, some .credentialUnavailable)

/-- The interface dispatch: events, connection flag, error, new tunnel
flag, new host. -/
def phase_launch (iface : Iface) (conn : Bool) (tunnelArg : Bool)
    (cpus : Nat) (mem time : Option Str) (pe : Str) (host : Option Str)
    (launch_args : Option Str) (cwd wd : Str) (pr pl : Nat) (node : Str)
    (ncatOk credsOk schedOk : Bool) :
    List IEvt × Bool × Option PyErr × Bool × Option Str :=
  match iface with
  | .iLocal =>
      let (conn, evt) := spawn_m conn (local_cmd launch_args)
      ([evt], conn, none, false, host)
  | .iSsh =>
      let popen := IEvt.popen [str "ncat", str "-l", str "-p", natStr pl, str "-e",
        str "/usr/lib/openssh/sftp-server -d " ++ cwd]
      if !ncatOk then ([popen], conn, some .assertionError, tunnelArg, host)
      else
        let (conn, evt) := spawn_m conn (ssh_login_cmd launch_args host pr pl)
        if !credsOk then ([popen, evt], conn, some .credentialUnavailable, tunnelArg, host)
        else
          ([popen, evt,
            .sendline (str "mkdir -p " ++ wd),
            .sendline (str "sshfs localhost: " ++ wd ++ str " -o directport=" ++ natStr pr),
            .sendline (str "cd " ++ wd)], conn, none, tunnelArg, host)
  | .iPbs =>
      let (conn, evt) := spawn_m conn (pbs_cmd cpus mem time launch_args)
      if !schedOk then ([evt], conn, some .expectTimeout, tunnelArg, host)
      else ([evt, .sendline (str "echo Running on `hostname`")], conn, none,
        tunnelArg, some node)
  | .iSge =>
      let (conn, evt) := spawn_m conn (sge_cmd cpus mem time pe launch_args)
      if !schedOk then ([evt], conn, some .expectTimeout, tunnelArg, host)
      else ([evt], conn, none, tunnelArg, some node)
  | .iSlurm =>
      let (conn, evt) := spawn_m conn (slurm_cmd cpus mem time launch_args)
      if !schedOk then ([evt], conn, some .expectTimeout, tunnelArg, host)
      else ([evt], conn, none, tunnelArg, some node)

/-- `start_kernel` line sends (modelled for a kernel command without
the `host_connection_file` placeholder and no `precmd`): change to the
working directory, start the kernel, queue the final `exit`. -/
def phase_start_kernel (workdir : Option Str) (cwd : Str) (kernel_init : Str) :
    List IEvt :=
  [.sendline (str "cd " ++ workdir.getD cwd),
   .sendline kernel_init,
   .sendline (str "exit")]

/-- The observable flow of `__init__` from the dispatch on. -/
def initFlow (iface : Iface) (cpus : Nat) (mem time : Option Str) (pe : Str)
    (kernel_init : Str) (workdir : Option Str) (cwd : Str) (tunnelArg : Bool)
    (host : Option Str) (launch_args : Option Str)
    (tunnel_hosts : Option (List Str)) (ci : Str → Nat)
    (pr pl : Nat) (wd : Str) (node : Str)
    (ncatOk credsOk schedOk : Bool) : InitResult :=
  let (evts0, conn0, err0) := phase_tunnel_hosts tunnel_hosts credsOk
  match err0 with
  | some e => ⟨some e, evts0, conn0, tunnelArg, [], host⟩
  | none =>
      let (evts1, conn1, err1, tunnel1, host1) :=
        phase_launch iface conn0 tunnelArg cpus mem time pe host launch_args
          cwd wd pr pl node ncatOk credsOk schedOk
      match err1 with
      | some e => ⟨some e, evts0 ++ evts1, conn1, tunnel1, [], host1⟩
      | none =>
          if conn1 then
            let evts2 := phase_start_kernel workdir cwd kernel_init
            if tunnel1 then
              match host1 with
              | none =>
                  -- the colon-in-host test on a None host raises TypeError
                  ⟨some .typeError, evts0 ++ evts1 ++ evts2, conn1, tunnel1, [], host1⟩
              | some h =>
                  match tunnel_connection_t tunnel_hosts h ci credsOk with
                  | .error e =>
                      ⟨some e, evts0 ++ evts1 ++ evts2 ++ [.tunnelPrime], conn1,
                        tunnel1, [], host1⟩
                  | .ok (_, _) =>
                      match tunnel_cmd_fmt tunnel_hosts h ci with
                      | some cmd =>
                          ⟨none, evts0 ++ evts1 ++ evts2 ++
                            [.tunnelPrime, .tunnelSpawn cmd], conn1, tunnel1,
                            [str "tunnel"], host1⟩
                      | none =>
                          ⟨some .valueError, evts0 ++ evts1 ++ evts2 ++ [.tunnelPrime],
                            conn1, tunnel1, [], host1⟩
              else ⟨none, evts0 ++ evts1 ++ evts2, conn1, tunnel1, [], host1⟩
          else ⟨none, evts0 ++ evts1, conn1, tunnel1, [], host1⟩

/-- Is an event the creation (or priming) of a forwarding TunnelHop? -/
def isTunnelEvt : IEvt → Bool
  | .tunnelPrime => true
  | .tunnelSpawn _ => true
  | _ => false

theorem phase_tunnel_hosts_no_tunnel_evt (tunnel_hosts : Option (List Str))
    (credsOk : Bool) :
    ((phase_tunnel_hosts tunnel_hosts credsOk).1.all fun e => !isTunnelEvt e) = true := by
  rcases tunnel_hosts with _ | hosts
  · rfl
  · simp only [phase_tunnel_hosts]
    rcases tunnel_hosts_cmd_m (some hosts) with e | o
    · rfl
    · rcases o with _ | cmd
      · rfl
      · cases credsOk <;> rfl

/-- C9: launching the local interface with `tunnel = true` requested
leaves the tunnel flag false after launch, stores no tunnels, and
never creates a TunnelHop (no priming or forwarding-tunnel event). -/
theorem C9_local_forces_tunnel_off (cpus : Nat) (mem time : Option Str) (pe : Str)
    (kernel_init : Str) (workdir : Option Str) (cwd : Str) (host : Option Str)
    (launch_args : Option Str) (tunnel_hosts : Option (List Str)) (ci : Str → Nat)
    (pr pl : Nat) (wd : Str) (node : Str) (ncatOk credsOk schedOk : Bool)
    (hchain : (phase_tunnel_hosts tunnel_hosts credsOk).2.2 = none) :
    (initFlow .iLocal cpus mem time pe kernel_init workdir cwd true host
        launch_args tunnel_hosts ci pr pl wd node ncatOk credsOk schedOk).tunnel =
      false ∧
    (initFlow .iLocal cpus mem time pe kernel_init workdir cwd true host
        launch_args tunnel_hosts ci pr pl wd node ncatOk credsOk schedOk).tunnels =
      [] ∧
    ((initFlow .iLocal cpus mem time pe kernel_init workdir cwd true host
        launch_args tunnel_hosts ci pr pl wd node ncatOk credsOk schedOk).events.all
      fun e => !isTunnelEvt e) = true := by
  have hevts := phase_tunnel_hosts_no_tunnel_evt tunnel_hosts credsOk
  rcases hpt : phase_tunnel_hosts tunnel_hosts credsOk with ⟨evts0, conn0, err0⟩
  rw [hpt] at hchain hevts
  simp only at hchain hevts
  subst hchain
  cases conn0 <;>
    refine ⟨by simp [initFlow, hpt, phase_launch, spawn_m], ?_, ?_⟩ <;>
    simp [initFlow, hpt, phase_launch, spawn_m, phase_start_kernel, isTunnelEvt,
      List.all_append, hevts] <;>
    exact fun x hx => by simpa using List.all_eq_true.mp hevts x hx

/-- Witness for C9 at a concrete input. -/
theorem C9_local_forces_tunnel_off_witness :
    (initFlow .iLocal 1 none none (str "smp") (str "ipython kernel") none
        (str "/home/u") true none none none (fun _ => 0) 0 0 (str "/tmp/x")
        (str "node") true true true).tunnel = false ∧
    (initFlow .iLocal 1 none none (str "smp") (str "ipython kernel") none
        (str "/home/u") true none none none (fun _ => 0) 0 0 (str "/tmp/x")
        (str "node") true true true).tunnels = [] ∧
    ((initFlow .iLocal 1 none none (str "smp") (str "ipython kernel") none
        (str "/home/u") true none none none (fun _ => 0) 0 0 (str "/tmp/x")
        (str "node") true true true).events.all fun e => !isTunnelEvt e) = true :=
  C9_local_forces_tunnel_off 1 none none (str "smp") (str "ipython kernel") none
    (str "/home/u") none none none (fun _ => 0) 0 0 (str "/tmp/x") (str "node")
    true true true (by decide)

/-- C6 counterexample: launching the ssh interface with no host does
NOT fail with a ConfigurationError before any process is spawned — the
`ncat` bridge is spawned first thing, the ssh login is spawned with the
literal host text `None`, and the run eventually dies with a
`TypeError` (the colon test on a None host in `tunnel_cmd`) long after spawning. -/
theorem C6_counterexample :
    (initFlow .iSsh 1 none none (str "smp") (str "ipython kernel") none
        (str "/home/u") true none none none (fun _ => 0) 34000 35000
        (str "/tmp/ikrsshfs-t") (str "node") true true true).err =
      some PyErr.typeError ∧
    (initFlow .iSsh 1 none none (str "smp") (str "ipython kernel") none
        (str "/home/u") true none none none (fun _ => 0) 34000 35000
        (str "/tmp/ikrsshfs-t") (str "node") true true true).events.head? =
      some (IEvt.popen [str "ncat", str "-l", str "-p", natStr 35000, str "-e",
        str "/usr/lib/openssh/sftp-server -d /home/u"]) ∧
    (initFlow .iSsh 1 none none (str "smp") (str "ipython kernel") none
        (str "/home/u") true none none none (fun _ => 0) 34000 35000
        (str "/tmp/ikrsshfs-t") (str "node") true true true).events ≠ [] := by
  refine ⟨by decide, by decide, by decide⟩

/-! ## Kernel registration (`add_kernel` in `manage.py`)

The only place a missing ssh host is validated: `add_kernel` raises
`KeyError` (a host is required for ssh) inside the interface
dispatch, before the `kernel.json` is written and installed (the
install runs only after the function body completes, so an `.error`
result means nothing was installed). -/

/-- The regex substitution removing non-word characters. -/
def pySubWordDrop (s : Str) : Str :=
  s.filter fun c => c.isAlphanum || c == '_'

/-- The regex substitution replacing non-word characters with `_`. -/
def pySubWordScore (s : Str) : Str :=
  s.map fun c => if c.isAlphanum || c = '_' then c else '_'

/-- Python `s.lower()`. -/
def pyLower (s : Str) : Str := s.map Char.toLower

/-- Python `s.replace(pat, rep)` for a nonempty `pat`: replace all
non-overlapping occurrences left to right. -/
def pyReplace (pat rep : Str) (s : Str) : Str :=
  match s with
  | [] => []
  | c :: cs =>
      if h : pat ≠ [] ∧ pat.isPrefixOf (c :: cs) = true then
        rep ++ pyReplace pat rep ((c :: cs).drop pat.length)
      else c :: pyReplace pat rep cs
termination_by s.length
decreasing_by
  · have hp : 0 < pat.length := List.length_pos.mpr h.1
    simp [List.length_drop]
    omega
  · simp

/-- `add_kernel` (pure part): builds `argv` and the kernel name, or
raises; the kernel-spec install step runs only on the `.ok` path,
after this function returns. -/
def add_kernel (interface : Iface) (name : Str) (kernel_cmd : Option Str)
    (cpus : Option Nat) (mem time pe : Option Str) (system : Bool)
    (workdir host precmd launch_args : Option Str)
    (tunnel_hosts : Option (List Str)) (verbose : Bool)
    (runtimedir : Option Str) (sysExecutable : Str) :
    Except PyErr (List Str × Str) :=
  let argv0 := [sysExecutable, str "-m", str "ikernel_remote"]
  match
    (match interface with
     | .iLocal => Except.ok (argv0 ++ [str "--interface", str "local"],
         [str "local"], [str "Local"])
     | .iPbs => Except.ok (argv0 ++ [str "--interface", str "pbs"],
         ([] : List Str), [str "PBS"])
     | .iSge => Except.ok (argv0 ++ [str "--interface", str "sge"],
         [str "sge"], [str "GridEngine"])
     | .iSsh =>
         match host with
         | none => Except.error PyErr.keyError
         | some h => Except.ok (argv0 ++ [str "--interface", str "ssh",
             str "--host", h], [str "ssh", h], [str "SSH", h])
     | .iSlurm => Except.ok (argv0 ++ [str "--interface", str "slurm"],
         [str "slurm"], [str "SLURM"])) with
  | .error e => .error e
  | .ok (argv, kernel_name, display_name) =>
      let display_name := display_name ++ [name]
      let kernel_name := kernel_name ++ [pyLower (pySubWordDrop name)]
      let (argv, kernel_name, display_name) :=
        match pe with
        | some p => (argv ++ [str "--pe", p], kernel_name ++ [p], display_name ++ [p])
        | none => (argv, kernel_name, display_name)
      let (argv, kernel_name, display_name) :=
        match cpus with
        | some c =>
            if c > 1 then
              (argv ++ [str "--cpus", natStr c], kernel_name ++ [natStr c ++ str "cpus"],
               display_name ++ [natStr c ++ str " CPUs"])
            else (argv, kernel_name, display_name)
        | none => (argv, kernel_name, display_name)
      let (argv, kernel_name, display_name) :=
        match mem with
        | some m => (argv ++ [str "--mem", m], kernel_name ++ [pyLower m],
            display_name ++ [m])
        | none => (argv, kernel_name, display_name)
      let (argv, kernel_name, display_name) :=
        match time with
        | some t => (argv ++ [str "--time", t],
            kernel_name ++ [str "t" ++ pyLower (pySubWordDrop t)],
            display_name ++ [t])
        | none => (argv, kernel_name, display_name)
      let argv := match workdir with
        | some w => argv ++ [str "--workdir", w]
        | none => argv
      let argv := match runtimedir with
        | some r => argv ++ [str "--runtimedir", r]
        | none => argv
      let argv := match precmd with
        | some p => argv ++ [str "--precmd", p]
        | none => argv
      let argv := match launch_args with
        | some la => argv ++ [str "--launch-args", la]
        | none => argv
      let argv := if verbose then argv ++ [str "--verbose"] else argv
      let argv := match kernel_cmd with
        | some kc => argv ++ [str "--kernel_cmd",
            pyReplace (str "\x7bconnection_file\x7d")
              (str "\x7bhost_connection_file\x7d") kc]
        | none => argv
      let (argv, kernel_name, display_name) :=
        match tunnel_hosts with
        | some hosts =>
            if hosts.isEmpty then (argv, kernel_name, display_name)
            else
              (argv ++ [str "--tunnel-hosts"] ++ hosts,
               kernel_name ++ [str "via_" ++ pyJoin (str "_") hosts],
               display_name ++ [str "(via " ++ pyJoin (str " ") hosts ++ str ")"])
        | none => (argv, kernel_name, display_name)
      let argv := argv ++ [str "-f", str "\x7bconnection_file\x7d"]
      let kname := pySubWordScore (str "remote_" ++ pyJoin (str "_") kernel_name)
      .ok (argv, kname)

/-- C6 (amended): the launch path performs NO host validation — with
the ssh interface and no host it spawns the `ncat` bridge and the ssh
session (with host formatted as the text `None`) and never raises a
ConfigurationError; the only missing-host guard is in kernel
registration: `add_kernel` with interface ssh and `host=None` raises
`KeyError` before any kernel spec is installed. -/
theorem C6_no_config_error (name : Str) (kernel_cmd : Option Str)
    (cpus : Option Nat) (mem time pe : Option Str) (system : Bool)
    (workdir precmd launch_args : Option Str) (tunnel_hosts : Option (List Str))
    (verbose : Bool) (runtimedir : Option Str) (sysExecutable : Str)
    (cpus' : Nat) (mem' time' : Option Str) (pe' kernel_init : Str)
    (workdir' : Option Str) (cwd : Str) (launch_args' : Option Str)
    (ci : Str → Nat) (pr pl : Nat) (wd node : Str) :
    add_kernel .iSsh name kernel_cmd cpus mem time pe system workdir none
      precmd launch_args tunnel_hosts verbose runtimedir sysExecutable =
      .error PyErr.keyError ∧
    (initFlow .iSsh cpus' mem' time' pe' kernel_init workdir' cwd true none
      launch_args' none ci pr pl wd node true true true).err ≠
      some PyErr.configurationError ∧
    (initFlow .iSsh cpus' mem' time' pe' kernel_init workdir' cwd true none
      launch_args' none ci pr pl wd node true true true).events.head? =
      some (IEvt.popen [str "ncat", str "-l", str "-p", natStr pl, str "-e",
        str "/usr/lib/openssh/sftp-server -d " ++ cwd]) := by
  refine ⟨rfl, ?_, ?_⟩ <;>
    simp [initFlow, phase_tunnel_hosts, phase_launch, spawn_m, phase_start_kernel]

/-! ## Object destruction (`RemoteIKernel.__del__`, defined twice)

`kernel.py` defines `__del__` twice in the same class body: the first
(after `__init__`) removes the connection file when `_delcf` is set;
the second (after `launch_ssh`) kills the sshfs bridge process.
Python class bodies are dictionaries built top to bottom, so the
second binding silently replaces the first and the connection-file
cleanup is dead code. -/

/-- The state `__del__` can observe. -/
structure DelState where
  delcf : Bool
  connection_file : Option Str
  sshfs_proc : Option Proc
deriving DecidableEq

/-- Effects of a destructor run. -/
inductive DelEff
  | removeConnFile
  | killSshfs
deriving DecidableEq

/-- First `__del__` (kernel.py line 287): remove the connection file
this orchestrator created. -/
def del_v1_effects (st : DelState) : List DelEff :=
  if st.delcf then [.removeConnFile] else []

/-- Second `__del__` (kernel.py line 353): kill the sshfs bridge. -/
def del_v2_effects (st : DelState) : List DelEff :=
  match st.sshfs_proc with
  | some _ => [.killSshfs]
  | none => []

/-- The class body bindings of `__del__`, in source order. -/
def remoteIKernelDelDefs : List (Str × (DelState → List DelEff)) :=
  [(str "__del__", del_v1_effects), (str "__del__", del_v2_effects)]

/-- Python class-dict semantics: a later binding of the same name
overwrites the earlier one. -/
def resolveMethod (name : Str) : Option (DelState → List DelEff) :=
  remoteIKernelDelDefs.foldl
    (fun acc kv => if kv.1 = name then some kv.2 else acc) none

/-- Destroying a `RemoteIKernel` runs the resolved `__del__`. -/
def destroy (st : DelState) : List DelEff :=
  match resolveMethod (str "__del__") with
  | some f => f st
  | none => []

/-- C8 (code bug): the second `__del__` definition shadows the first,
so destroying an orchestrator that created its own connection file
(`_delcf` set) never removes that file — contrary to the claim and to
the evident intent of the `_delcf` machinery. -/
theorem C8_connection_file_never_removed (st : DelState) (h : st.delcf = true) :
    destroy st = del_v2_effects st ∧ DelEff.removeConnFile ∉ destroy st := by
  have hres : destroy st = del_v2_effects st := rfl
  refine ⟨hres, ?_⟩
  rw [hres, del_v2_effects]
  rcases st.sshfs_proc with _ | p <;> simp

/-- Witness for C8: an orchestrator that created its connection file
and has an sshfs bridge; destruction only kills the bridge. -/
theorem C8_connection_file_never_removed_witness :
    destroy ⟨true, some (str "/tmp/kernel-abc.json"), some ⟨true⟩⟩ =
      del_v2_effects ⟨true, some (str "/tmp/kernel-abc.json"), some ⟨true⟩⟩ ∧
    DelEff.removeConnFile ∉
      destroy ⟨true, some (str "/tmp/kernel-abc.json"), some ⟨true⟩⟩ :=
  C8_connection_file_never_removed ⟨true, some (str "/tmp/kernel-abc.json"), some ⟨true⟩⟩ rfl
